import Mathlib

/-!
Verification of the Cucumber report validation / status-classification pipeline
(GCAutomationTestResults).

The development is a shallow embedding of three JavaScript modules:

- TestStatusCalculator (scenario/feature status resolution),
- CucumberJsonValidator (sanitization of raw Cucumber JSON reports),
- DataIntegrityValidator (count validation and cross-validation).

Modelling conventions for the dynamically-typed source:

- A JavaScript field value whose only uses are truthiness tests, string
  comparison against literals, and verbatim copying is modelled by JVal:
  JVal.missing stands for a missing field or any falsy primitive
  (undefined, null, 0, false, NaN; the empty string is JVal.str ""),
  JVal.prim stands for any truthy non-string value, and JVal.str s is a
  string.  Truthiness of JVal.str s is s not being empty, matching JS.
- A field that holds an array in the happy path is modelled by JArr:
  missing (missing), fprim (falsy non-array), tprim (truthy non-array,
  always truthy like every JS object), or arr xs.
- Entries of feature-element arrays are SEntry: jnull (null/undefined,
  whose property access throws), jfalsy (a falsy non-null primitive,
  whose property access yields undefined), jprim (a truthy primitive,
  whose property access yields undefined), or jobj.  Step and hook
  entries are Option-valued because the source treats null and primitive
  entries identically there.
- Functions that can raise a TypeError in JS (property access on
  null/undefined, calling a string method on a non-string) return Except
  Unit; all other functions are total, matching the absence of throwing
  operations on their paths.
- Logging, warning/error accumulation and timestamps are side channels
  that never influence the data results under study and are omitted.
-/

/-- Model of a loosely typed JavaScript field value: a missing/falsy
primitive, a truthy non-string value, or a string. -/
inductive JVal where
  | missing
  | prim
  | str (s : String)
deriving DecidableEq

/-- JavaScript truthiness of a JVal: strings are truthy iff non-empty. -/
def JVal.truthy : JVal → Bool
  | .missing => false
  | .prim => true
  | .str s => s ≠ ""

/-- Model of a JavaScript field expected to hold an array: missing, a
falsy non-array, a truthy non-array, or an actual array. -/
inductive JArr (α : Type) where
  | missing
  | fprim
  | tprim
  | arr (xs : List α)
deriving DecidableEq

/-- JavaScript truthiness of a JArr value; arrays are always truthy. -/
def JArr.truthy : JArr α → Bool
  | .missing => false
  | .fprim => false
  | .tprim => true
  | .arr _ => true

/-- Whitespace test used by the model of String.prototype.trim. -/
def isWsChar (c : Char) : Bool :=
  c = ' ' || c = '\t' || c = '\n' || c = '\r'

/-- Trim on character lists: drop whitespace from both ends. -/
def trimChars (l : List Char) : List Char :=
  (((l.dropWhile isWsChar).reverse.dropWhile isWsChar)).reverse

/-- Model of JavaScript String.prototype.trim. -/
def trimStr (s : String) : String :=
  ⟨trimChars s.data⟩

/-- Character for a decimal digit, as produced by JS number-to-string. -/
def digitChar (d : Nat) : Char :=
  Char.ofNat (48 + d)

/-- Fuel-driven digit rendering; the fuel strictly dominates the number,
so the base case is never reached on the exposed entry point.  Structural
recursion keeps the definition kernel-reducible. -/
def natCharsFuel : Nat → Nat → List Char
  | 0, _ => []
  | fuel + 1, n =>
    if n < 10 then [digitChar n]
    else natCharsFuel fuel (n / 10) ++ [digitChar (n % 10)]

/-- Decimal digit characters of a natural number, most significant first;
models the JS template-literal rendering of an index. -/
def natChars (n : Nat) : List Char :=
  natCharsFuel (n + 1) n

/-- Decimal string of a natural number (JS template literal of an index). -/
def natStr (n : Nat) : String :=
  ⟨natChars n⟩

/-- Data of a concatenation is the concatenation of the data. -/
theorem strdata_append (s t : String) : (s ++ t).data = s.data ++ t.data := by
  cases s; cases t; rfl

/-- A string is empty exactly when its character list is. -/
theorem str_eq_empty_iff (s : String) : s = "" ↔ s.data = [] := by
  constructor
  · intro h
    rw [h]
  · intro h
    cases s with
    | mk d =>
      simp only at h
      subst h
      rfl

/-- Dropping a prefix twice with the same predicate drops it once. -/
theorem dropWhile_dropWhile (p : Char → Bool) (l : List Char) :
    (l.dropWhile p).dropWhile p = l.dropWhile p := by
  induction l with
  | nil => rfl
  | cons c t ih =>
    by_cases h : p c
    · simp [List.dropWhile_cons, h, ih]
    · simp [List.dropWhile_cons, h]

/-- The head of a dropWhile result does not satisfy the predicate. -/
theorem head_dropWhile_false (p : Char → Bool) (l : List Char) :
    ∀ c, (l.dropWhile p).head? = some c → p c = false := by
  induction l with
  | nil => intro c hc; simp at hc
  | cons a t ih =>
    intro c hc
    by_cases h : p a
    · rw [List.dropWhile_cons_of_pos h] at hc
      exact ih c hc
    · rw [List.dropWhile_cons_of_neg h] at hc
      simp at hc
      subst hc
      simpa using h

/-- A list whose head fails the predicate is untouched by dropWhile. -/
theorem dropWhile_eq_self_of_head (p : Char → Bool) (l : List Char)
    (h : ∀ c, l.head? = some c → p c = false) : l.dropWhile p = l := by
  cases l with
  | nil => rfl
  | cons c t =>
    have hc : p c = false := h c rfl
    simp [List.dropWhile_cons, hc]

/-- When nonempty, a dropWhile result keeps the last element of the list. -/
theorem getLast?_dropWhile (p : Char → Bool) (l : List Char)
    (h : l.dropWhile p ≠ []) : (l.dropWhile p).getLast? = l.getLast? := by
  induction l with
  | nil => simp at h
  | cons a t ih =>
    by_cases hp : p a
    · rw [List.dropWhile_cons_of_pos hp] at h ⊢
      have ht : t ≠ [] := by
        intro he
        subst he
        simp at h
      rw [ih h]
      cases t with
      | nil => exact absurd rfl ht
      | cons b u => simp [List.getLast?_cons_cons]
    · rw [List.dropWhile_cons_of_neg hp]

/-- The head of a trimmed list is not whitespace. -/
theorem trim_head_not_ws (l : List Char) :
    ∀ c, (trimChars l).head? = some c → isWsChar c = false := by
  intro c hc
  unfold trimChars at hc
  rw [List.head?_reverse] at hc
  set A := l.dropWhile isWsChar with hA
  set B := A.reverse.dropWhile isWsChar with hB
  have hBne : B ≠ [] := by
    intro he
    rw [he] at hc
    simp at hc
  rw [getLast?_dropWhile _ _ hBne, List.getLast?_reverse] at hc
  exact head_dropWhile_false isWsChar l c hc

/-- The last element of a trimmed list is not whitespace. -/
theorem trim_last_not_ws (l : List Char) :
    ∀ c, (trimChars l).getLast? = some c → isWsChar c = false := by
  intro c hc
  unfold trimChars at hc
  rw [← List.head?_reverse, List.reverse_reverse] at hc
  exact head_dropWhile_false isWsChar _ c hc

/-- A list with non-whitespace ends is fixed by trimming. -/
theorem trim_eq_self (l : List Char)
    (h1 : ∀ c, l.head? = some c → isWsChar c = false)
    (h2 : ∀ c, l.getLast? = some c → isWsChar c = false) :
    trimChars l = l := by
  unfold trimChars
  rw [dropWhile_eq_self_of_head isWsChar l h1]
  have h3 : ∀ c, l.reverse.head? = some c → isWsChar c = false := by
    intro c hc
    rw [List.head?_reverse] at hc
    exact h2 c hc
  rw [dropWhile_eq_self_of_head isWsChar l.reverse h3, List.reverse_reverse]

/-- Trimming is idempotent on character lists. -/
theorem trimChars_trimChars (l : List Char) :
    trimChars (trimChars l) = trimChars l :=
  trim_eq_self _ (trim_head_not_ws l) (trim_last_not_ws l)

/-- Trimming is idempotent on strings. -/
theorem trimStr_trimStr (s : String) : trimStr (trimStr s) = trimStr s := by
  cases s with
  | mk d =>
    show (⟨trimChars (trimChars d)⟩ : String) = ⟨trimChars d⟩
    rw [trimChars_trimChars]

/-- Digit characters are not whitespace. -/
theorem digitChar_not_ws (d : Nat) (hd : d < 10) : isWsChar (digitChar d) = false := by
  interval_cases d <;> decide

/-- With dominating fuel, the digit rendering is non-empty. -/
theorem natCharsFuel_ne_nil (fuel n : Nat) (h : n < fuel) :
    natCharsFuel fuel n ≠ [] := by
  cases fuel with
  | zero => omega
  | succ f =>
    unfold natCharsFuel
    split
    · simp
    · simp

/-- The digit list of a number is non-empty. -/
theorem natChars_ne_nil (n : Nat) : natChars n ≠ [] :=
  natCharsFuel_ne_nil (n + 1) n (by omega)

/-- With dominating fuel, the rendering ends with the last digit. -/
theorem natCharsFuel_getLast (fuel n : Nat) (h : n < fuel) :
    (natCharsFuel fuel n).getLast? = some (digitChar (n % 10)) := by
  cases fuel with
  | zero => omega
  | succ f =>
    unfold natCharsFuel
    split
    · next hlt => simp [Nat.mod_eq_of_lt hlt]
    · exact List.getLast?_concat _

/-- The digit list of a number ends with its last decimal digit. -/
theorem natChars_getLast (n : Nat) :
    (natChars n).getLast? = some (digitChar (n % 10)) :=
  natCharsFuel_getLast (n + 1) n (by omega)

/-- With dominating fuel, the rendering starts with a digit character. -/
theorem natCharsFuel_head_not_ws (fuel : Nat) : ∀ n, n < fuel →
    ∀ c, (natCharsFuel fuel n).head? = some c → isWsChar c = false := by
  induction fuel with
  | zero => intro n h; omega
  | succ f ih =>
    intro n h c hc
    unfold natCharsFuel at hc
    split at hc
    · next hlt =>
      simp at hc
      subst hc
      exact digitChar_not_ws n hlt
    · next hge =>
      have hlt2 : n / 10 < f := by
        have hd : n / 10 < n := Nat.div_lt_self (by omega) (by omega)
        omega
      have hne := natCharsFuel_ne_nil f (n / 10) hlt2
      cases hh : natCharsFuel f (n / 10) with
      | nil => exact absurd hh hne
      | cons a t =>
        rw [hh] at hc
        simp at hc
        subst hc
        have := ih (n / 10) hlt2 a
        rw [hh] at this
        exact this rfl

/-- The head of a digit list is a non-whitespace character. -/
theorem natChars_head_not_ws (n : Nat) :
    ∀ c, (natChars n).head? = some c → isWsChar c = false :=
  natCharsFuel_head_not_ws (n + 1) n (by omega)

/-- The last character of a digit list is not whitespace. -/
theorem natChars_last_not_ws (n : Nat) :
    ∀ c, (natChars n).getLast? = some c → isWsChar c = false := by
  intro c hc
  rw [natChars_getLast] at hc
  simp at hc
  subst hc
  exact digitChar_not_ws _ (Nat.mod_lt _ (by omega))

/-! ## Data model of report objects -/

/-- Model of a result object attached to a step or hook.  A truthy
non-object result value behaves like a result object with every field
absent and is folded into this representation. -/
structure ResultR where
  status : JVal
  duration : Option Int
  error_message : JVal
  errorMessage : JVal
deriving DecidableEq

/-- Model of a hook match object. -/
structure MatchR where
  location : JVal
deriving DecidableEq

/-- Model of a before/after hook object; matchv models the JS field
named match (a Lean keyword). -/
structure HookR where
  result : Option ResultR
  status : JVal
  matchv : Option MatchR
  error_message : JVal
deriving DecidableEq

/-- Model of a step object. -/
structure StepR where
  name : JVal
  keyword : JVal
  result : Option ResultR
  status : JVal
  error_message : JVal
deriving DecidableEq

/-- Model of a scenario object. -/
structure ScenarioR where
  name : JVal
  id : JVal
  type : JVal
  steps : JArr (Option StepR)
  before : JArr (Option HookR)
  after : JArr (Option HookR)
deriving DecidableEq

/-- Entry of a feature elements array: null/undefined (falsy, and
property access throws), a falsy non-null primitive such as 0, the empty
string, false or NaN (falsy, but property access yields undefined), a
truthy primitive (property access yields undefined), or a scenario
object. -/
inductive SEntry where
  | jnull
  | jfalsy
  | jprim
  | jobj (s : ScenarioR)
deriving DecidableEq

/-- Model of a feature object.  The scenarios field models the alternate
JS key consulted when elements is falsy. -/
structure FeatureR where
  name : JVal
  elements : JArr SEntry
  scenarios : JArr SEntry
deriving DecidableEq

/-- Entry of a top-level report array: null/undefined (property access
throws), a truthy primitive (properties read as undefined), or a feature
object. -/
inductive FEntry where
  | jnull
  | jprim
  | jobj (f : FeatureR)
deriving DecidableEq

/-! ## TestStatusCalculator

Embedding of the scenario/feature status resolution of
TestStatusCalculator (src/unnamed/part_000).  No operation on these
paths can throw in JS (all property accesses are guarded), so the
try/catch in calculateScenarioStatus is modelled as the identity; the
error branch is unreachable.  calculateFeatureStatus has no try/catch
and its filter callback accesses el.type, which throws on a null
element, hence the Except result there. -/

/-- Options of TestStatusCalculator; both flags default to true. -/
structure CalcOptions where
  treatSetupFailuresAsFailed : Bool
  treatTeardownFailuresAsFailed : Bool
deriving DecidableEq

/-- Default TestStatusCalculator configuration. -/
def defaultCalcOptions : CalcOptions :=
  { treatSetupFailuresAsFailed := true, treatTeardownFailuresAsFailed := true }

/-- A JS value, or a default when the value is falsy (the JS operator
written as two vertical bars). -/
def jvalOr (v : JVal) (d : JVal) : JVal :=
  if v.truthy then v else d

/-- Common view of a step or hook for error-message extraction. -/
structure ItemR where
  result : Option ResultR
  error_message : JVal
deriving DecidableEq

/-- Item view of a hook entry; a null entry has no fields. -/
def hookItem : Option HookR → ItemR
  | none => { result := none, error_message := .missing }
  | some h => { result := h.result, error_message := h.error_message }

/-- Item view of a step entry; a null entry has no fields. -/
def stepItem : Option StepR → ItemR
  | none => { result := none, error_message := .missing }
  | some st => { result := st.result, error_message := st.error_message }

/-- Embedding of TestStatusCalculator.getHookStatus. -/
def getHookStatus : Option HookR → JVal
  | none => .str "unknown"
  | some h =>
    match h.result with
    | some r => jvalOr r.status (.str "unknown")
    | none => if h.status.truthy then h.status else .str "unknown"

/-- Embedding of TestStatusCalculator.getStepStatus. -/
def getStepStatus : Option StepR → JVal
  | none => .str "unknown"
  | some st =>
    match st.result with
    | some r => jvalOr r.status (.str "unknown")
    | none => if st.status.truthy then st.status else .str "unknown"

/-- Embedding of TestStatusCalculator.sanitizeErrorMessage: non-strings
map to a fixed message, long messages are truncated, others trimmed. -/
def sanitizeErrorMessage : JVal → String
  | .str s =>
    if s = "" then "Unknown error"
    else if s.length > 500 then ⟨s.data.take 500⟩ ++ "... (truncated)"
    else trimStr s
  | _ => "Unknown error"

/-- Embedding of TestStatusCalculator.extractErrorMessage. -/
def extractErrorMessage (it : ItemR) : Option String :=
  match it.result with
  | some r =>
    if r.error_message.truthy then some (sanitizeErrorMessage r.error_message)
    else if r.errorMessage.truthy then some (sanitizeErrorMessage r.errorMessage)
    else if it.error_message.truthy then some (sanitizeErrorMessage it.error_message)
    else if r.status = .str "failed" then
      some "Step or hook failed (no error message available)"
    else none
  | none =>
    if it.error_message.truthy then some (sanitizeErrorMessage it.error_message)
    else none

/-- Result of a phase analysis (setup, execution or teardown). -/
structure PhaseResult where
  status : String
  hasHooks : Bool
  hasSteps : Bool
  failureReason : Option String
deriving DecidableEq

/-- Hook loop of analyzeSetupPhase / analyzeTeardownPhase: early return
with the first failed hook's message, otherwise remember a passed hook. -/
def hookLoop (hooks : List (Option HookR)) (cur : String) : String × Option String :=
  match hooks with
  | [] => (cur, none)
  | h :: t =>
    if getHookStatus h = .str "failed" then ("failed", extractErrorMessage (hookItem h))
    else if getHookStatus h = .str "passed" then hookLoop t "passed"
    else hookLoop t cur

/-- Embedding of TestStatusCalculator.analyzeSetupPhase. -/
def analyzeSetupPhase (sc : ScenarioR) : PhaseResult :=
  match sc.before with
  | .arr xs =>
    let r := hookLoop xs "not_executed"
    { status := r.1, hasHooks := decide (0 < xs.length), hasSteps := false,
      failureReason := r.2 }
  | _ => { status := "not_executed", hasHooks := false, hasSteps := false,
           failureReason := none }

/-- Embedding of TestStatusCalculator.analyzeTeardownPhase. -/
def analyzeTeardownPhase (sc : ScenarioR) : PhaseResult :=
  match sc.after with
  | .arr xs =>
    let r := hookLoop xs "not_executed"
    { status := r.1, hasHooks := decide (0 < xs.length), hasSteps := false,
      failureReason := r.2 }
  | _ => { status := "not_executed", hasHooks := false, hasSteps := false,
           failureReason := none }

/-- Embedding of TestStatusCalculator.analyzeExecutionPhase.  The single
pass that sets the three boolean flags is rendered with List.any; the
failure reason is overwritten at each failed step, so the last failed
step's message wins. -/
def analyzeExecutionPhase (sc : ScenarioR) : PhaseResult :=
  match sc.steps with
  | .arr xs =>
    let hasPassed := xs.any (fun st => getStepStatus st = .str "passed")
    let hasFailed := xs.any (fun st => getStepStatus st = .str "failed")
    let hasSkipped := xs.any (fun st => getStepStatus st = .str "skipped")
    let fr :=
      match (xs.filter (fun st => getStepStatus st = .str "failed")).getLast? with
      | some st => extractErrorMessage (stepItem st)
      | none => none
    let status :=
      if hasFailed then "failed"
      else if hasPassed && !hasSkipped then "passed"
      else if hasSkipped && !hasPassed then "skipped"
      else if hasPassed && hasSkipped then "mixed"
      else "not_executed"
    { status := status, hasHooks := false, hasSteps := decide (0 < xs.length),
      failureReason := fr }
  | _ => { status := "not_executed", hasHooks := false, hasSteps := false,
           failureReason := none }

/-- An optional string, or a default when it is absent or empty (the JS
falsy-or pattern applied to a nullable string). -/
def strOrDefault (o : Option String) (d : String) : String :=
  match o with
  | some m => if m = "" then d else m
  | none => d

/-- Overall status with its human-readable reason. -/
structure OverallR where
  status : String
  reason : String
deriving DecidableEq

/-- Embedding of TestStatusCalculator.determineOverallStatus. -/
def determineOverallStatus (opts : CalcOptions) (su ex td : PhaseResult) : OverallR :=
  if opts.treatSetupFailuresAsFailed && su.status = "failed" then
    { status := "failed",
      reason := "Setup failed: " ++ strOrDefault su.failureReason "Before hook failed" }
  else if opts.treatTeardownFailuresAsFailed && td.status = "failed" then
    { status := "failed",
      reason := "Teardown failed: " ++ strOrDefault td.failureReason "After hook failed" }
  else if ex.status = "failed" then
    { status := "failed",
      reason := "Test execution failed: " ++ strOrDefault ex.failureReason "Step failed" }
  else if ex.status = "passed" then
    { status := "passed", reason := "All steps passed successfully" }
  else if ex.status = "skipped" then
    { status := "skipped", reason := "Test steps were skipped" }
  else if ex.status = "mixed" then
    { status := "failed", reason := "Some steps failed or were skipped" }
  else if ex.status = "not_executed" then
    if !ex.hasSteps then
      { status := "skipped", reason := "No executable steps found" }
    else
      { status := "unknown", reason := "Steps present but execution status unclear" }
  else
    { status := "unknown", reason := "Unable to determine execution status" }

/-- Details block of a scenario status result. -/
structure DetailsR where
  setupStatus : String
  executionStatus : String
  teardownStatus : String
  hasSteps : Bool
  hasSetup : Bool
  hasTeardown : Bool
deriving DecidableEq

/-- Scenario status result; details is absent on the null-input early
return, matching the shape of the JS early-return object. -/
structure ScenStatusR where
  status : String
  reason : String
  details : Option DetailsR
deriving DecidableEq

/-- View of a scenario entry as the object whose properties the phase
analyzers read; a truthy primitive yields undefined for every field. -/
def scenarioView : SEntry → ScenarioR
  | .jobj s => s
  | _ => { name := .missing, id := .missing, type := .missing,
           steps := .missing, before := .missing, after := .missing }

/-- Embedding of TestStatusCalculator.calculateScenarioStatus.  The
early-return guard tests falsiness, so it catches null/undefined and
every other falsy primitive alike.  No statement in the guarded JS try
block can throw, so the catch branch (status error) is unreachable and
not modelled. -/
def calculateScenarioStatus (opts : CalcOptions) : SEntry → ScenStatusR
  | .jnull =>
    { status := "unknown", reason := "Scenario is null or undefined", details := none }
  | .jfalsy =>
    { status := "unknown", reason := "Scenario is null or undefined", details := none }
  | e =>
    let sc := scenarioView e
    let su := analyzeSetupPhase sc
    let ex := analyzeExecutionPhase sc
    let td := analyzeTeardownPhase sc
    let ov := determineOverallStatus opts su ex td
    { status := ov.status, reason := ov.reason,
      details := some
        { setupStatus := su.status, executionStatus := ex.status,
          teardownStatus := td.status, hasSteps := ex.hasSteps,
          hasSetup := su.hasHooks, hasTeardown := td.hasHooks } }

/-- Per-feature scenario status counts. -/
structure CountsR where
  passed : Nat
  failed : Nat
  skipped : Nat
  errors : Nat
  total : Nat
deriving DecidableEq

/-- Feature status result; counts is present only on the normal path. -/
structure FeatStatusR where
  status : String
  reason : String
  counts : Option CountsR
deriving DecidableEq

/-- Type read off a feature element by the background filter; a truthy
primitive has no type property. -/
def entryType : SEntry → JVal
  | .jobj s => s.type
  | _ => .missing

/-- Fold that classifies one scenario status into the four counters,
mirroring the switch in calculateFeatureStatus. -/
def countScenario (opts : CalcOptions) (acc : Nat × Nat × Nat × Nat) (e : SEntry) :
    Nat × Nat × Nat × Nat :=
  let s := (calculateScenarioStatus opts e).status
  if s = "passed" then (acc.1 + 1, acc.2.1, acc.2.2.1, acc.2.2.2)
  else if s = "failed" then (acc.1, acc.2.1 + 1, acc.2.2.1, acc.2.2.2)
  else if s = "skipped" then (acc.1, acc.2.1, acc.2.2.1 + 1, acc.2.2.2)
  else (acc.1, acc.2.1, acc.2.2.1, acc.2.2.2 + 1)

/-- Non-background elements of a feature, as selected by the filter in
calculateFeatureStatus. -/
def nonBackgroundElems (xs : List SEntry) : List SEntry :=
  xs.filter (fun e => entryType e ≠ .str "background")

/-- Status/reason/counts computed by calculateFeatureStatus from a
non-empty filtered scenario list. -/
def featureStatusCounted (opts : CalcOptions) (scenarios : List SEntry) : FeatStatusR :=
  let c := scenarios.foldl (countScenario opts) (0, 0, 0, 0)
  let passed := c.1
  let failed := c.2.1
  let skipped := c.2.2.1
  let errors := c.2.2.2
  let sr : OverallR :=
    if 0 < errors then
      { status := "error", reason := natStr errors ++ " scenarios have errors" }
    else if 0 < failed then
      { status := "failed",
        reason := natStr failed ++ " of " ++ natStr scenarios.length ++
          " scenarios failed" }
    else if skipped = scenarios.length then
      { status := "skipped", reason := "All scenarios were skipped" }
    else if passed = scenarios.length then
      { status := "passed", reason := "All scenarios passed" }
    else
      { status := "mixed",
        reason := natStr passed ++ " passed, " ++ natStr failed ++
          " failed, " ++ natStr skipped ++ " skipped" }
  { status := sr.status, reason := sr.reason,
    counts := some
      { passed := passed, failed := failed, skipped := skipped,
        errors := errors, total := scenarios.length } }

/-- Body of calculateFeatureStatus on the elements value.  The filter
over elements reads el.type on every entry, so a null entry makes the JS
code throw; a truthy non-array elements value makes the filter call
itself throw.  Both are the Except error case. -/
def featureStatusFromElems (opts : CalcOptions) : JArr SEntry → Except Unit FeatStatusR
  | .missing =>
    .ok { status := "unknown", reason := "Feature has no scenarios", counts := none }
  | .fprim =>
    .ok { status := "unknown", reason := "Feature has no scenarios", counts := none }
  | .tprim => .error ()
  | .arr xs =>
    if xs.any (fun e => e = SEntry.jnull) then .error ()
    else if (nonBackgroundElems xs).length = 0 then
      .ok { status := "unknown", reason := "No executable scenarios found",
            counts := none }
    else
      .ok (featureStatusCounted opts (nonBackgroundElems xs))

/-- Embedding of TestStatusCalculator.calculateFeatureStatus. -/
def calculateFeatureStatus (opts : CalcOptions) : Option FeatureR → Except Unit FeatStatusR
  | none =>
    .ok { status := "unknown", reason := "Feature has no scenarios", counts := none }
  | some f => featureStatusFromElems opts f.elements

/-! ## CucumberJsonValidator

Embedding of the sanitization pipeline of CucumberJsonValidator
(src/cucumber-report-viewer/src/utils/CucumberJsonValidator.js).  The
generatePlaceholders option is carried as a Bool (default true).  The
error/warning accumulators, entry counters and log calls never influence
the sanitized data and are omitted; the only control effect of an entry
failure is the entry being dropped, which the Option/Except results
capture.  A scenario whose id must be generated from a truthy non-string
name makes generateId call toLowerCase on a non-string, a JS TypeError
that the per-element try/catch turns into dropping that scenario. -/

/-- Embedding of CucumberJsonValidator.sanitizeTestName: strings with
non-empty trim are trimmed, everything else becomes a placeholder (or
the bare fallback when placeholders are disabled). -/
def sanitizeTestName (gp : Bool) (name : JVal) (fallback : String) : String :=
  match name with
  | .str s =>
    if trimStr s = "" then
      if gp then fallback ++ " (auto-generated)" else fallback
    else trimStr s
  | _ => if gp then fallback ++ " (auto-generated)" else fallback

/-- Per-character model of toLowerCase followed by the replacement of
every character outside a-z0-9 by a dash. -/
def jsIdChar (c : Char) : Char :=
  let d := c.toLower
  if ('a' ≤ d ∧ d ≤ 'z') ∨ ('0' ≤ d ∧ d ≤ '9') then d else '-'

/-- Lowercase-and-dash normalization used by generateId. -/
def jsLowerReplace (s : String) : String :=
  ⟨s.data.map jsIdChar⟩

/-- Embedding of CucumberJsonValidator.generateId.  A falsy name falls
back to a scenario-index base name; a truthy non-string name throws. -/
def generateId (name : JVal) (featureIndex scenarioIndex : Nat) : Except Unit String :=
  match name with
  | .prim => .error ()
  | .str s =>
    if s = "" then
      .ok ("feature-" ++ natStr featureIndex ++ "-" ++
        jsLowerReplace ("scenario-" ++ natStr scenarioIndex) ++ "-" ++ natStr scenarioIndex)
    else
      .ok ("feature-" ++ natStr featureIndex ++ "-" ++ jsLowerReplace s ++ "-" ++
        natStr scenarioIndex)
  | .missing =>
    .ok ("feature-" ++ natStr featureIndex ++ "-" ++
      jsLowerReplace ("scenario-" ++ natStr scenarioIndex) ++ "-" ++ natStr scenarioIndex)

/-- Default result object installed on steps and hooks. -/
def defaultResult : ResultR :=
  { status := .str "unknown", duration := some 0,
    error_message := .missing, errorMessage := .missing }

/-- Embedding of CucumberJsonValidator.sanitizeStep: non-objects become
null (to be filtered out); the name is sanitized, the keyword defaulted,
and a result installed only when both result and status are absent. -/
def sanitizeStep (gp : Bool) (stepIndex : Nat) : Option StepR → Option StepR
  | none => none
  | some st =>
    some { st with
      name := .str (sanitizeTestName gp st.name ("Step " ++ natStr stepIndex)),
      keyword := if st.keyword.truthy then st.keyword else .str "Given ",
      result :=
        if st.result.isNone && !st.status.truthy then some defaultResult
        else st.result }

/-- Embedding of CucumberJsonValidator.sanitizeHook: non-objects are
replaced by a fully defaulted hook; objects get result and match
defaulted when falsy. -/
def sanitizeHook (t : String) : Option HookR → HookR
  | none =>
    { result := some defaultResult, status := .missing,
      matchv := some { location := .str ("unknown " ++ t ++ " hook") },
      error_message := .missing }
  | some h =>
    { h with
      result := some (h.result.getD defaultResult),
      matchv := some (h.matchv.getD { location := .str (t ++ " hook") }) }

/-- Steps field rewrite of sanitizeScenario: only a genuine array is
mapped (with original indices) and null results filtered out. -/
def sanitizeStepsArr (gp : Bool) : JArr (Option StepR) → JArr (Option StepR)
  | .arr xs =>
    .arr (((xs.enum).map (fun p => sanitizeStep gp p.1 p.2)).filter Option.isSome)
  | o => o

/-- Hook array rewrite of sanitizeScenario: only a genuine array is
mapped; sanitizeHook never returns null. -/
def sanitizeHooksArr (t : String) : JArr (Option HookR) → JArr (Option HookR)
  | .arr xs => .arr (xs.map (fun h => some (sanitizeHook t h)))
  | o => o

/-- Embedding of CucumberJsonValidator.sanitizeScenario.  Non-objects
yield null; an id-generation TypeError propagates to the caller's catch
(the Except error). -/
def sanitizeScenario (gp : Bool) (featureIndex scenarioIndex : Nat) :
    SEntry → Except Unit (Option ScenarioR)
  | .jnull => .ok none
  | .jfalsy => .ok none
  | .jprim => .ok none
  | .jobj sc =>
    (if sc.id.truthy then Except.ok sc.id
     else (generateId sc.name featureIndex scenarioIndex).map JVal.str).map (fun idv =>
      some { sc with
        name := .str (sanitizeTestName gp sc.name ("Scenario " ++ natStr scenarioIndex)),
        id := idv,
        type := if sc.type.truthy then sc.type else .str "scenario",
        steps := sanitizeStepsArr gp sc.steps,
        before := sanitizeHooksArr "before" sc.before,
        after := sanitizeHooksArr "after" sc.after })

/-- Embedding of CucumberJsonValidator.sanitizeFeature, split into the
element-source choice and the element loop.  The element source is
elements when truthy, otherwise scenarios, otherwise an empty array;
non-arrays leave the initial empty elements list. -/
def pickElems (f : FeatureR) : List SEntry :=
  match (if f.elements.truthy then f.elements
         else if f.scenarios.truthy then f.scenarios
         else JArr.arr []) with
  | .arr xs => xs
  | _ => []

/-- Element loop of sanitizeFeature: each entry is sanitized with its
original index; entries that sanitize to null or throw are dropped by
the per-element try/catch. -/
def sanitizeElems (gp : Bool) (featureIndex : Nat) (src : List SEntry) : List SEntry :=
  (src.enum).filterMap (fun p =>
    match sanitizeScenario gp featureIndex p.1 p.2 with
    | .ok (some s) => some (SEntry.jobj s)
    | _ => none)

/-- Sanitization of one feature object. -/
def sanitizeFeature (gp : Bool) (featureIndex : Nat) : FEntry → Option FeatureR
  | .jnull => none
  | .jprim => none
  | .jobj f =>
    some { f with
      name := .str (sanitizeTestName gp f.name ("Feature " ++ natStr featureIndex)),
      elements := JArr.arr (sanitizeElems gp featureIndex (pickElems f)) }

/-- Feature loop of validateReport: features that sanitize to null are
recorded as skipped and excluded from the sanitized data. -/
def sanitizeReportData (gp : Bool) (xs : List FEntry) : List FeatureR :=
  (xs.enum).filterMap (fun p => sanitizeFeature gp p.1 p.2)

/-- Top-level input of validateReport: either not an array (rejected by
validateBasicStructure) or an array of feature entries. -/
inductive RInput where
  | notArr
  | arrv (xs : List FEntry)
deriving DecidableEq

/-- Data part of the validateReport result; sanitizedData stays null
when basic structure validation fails. -/
structure VRes where
  sanitizedData : Option (List FeatureR)
deriving DecidableEq

/-- Embedding of CucumberJsonValidator.validateReport, restricted to its
data output (error/warning bookkeeping omitted, see the section note). -/
def validateReport (gp : Bool) : RInput → VRes
  | .notArr => { sanitizedData := none }
  | .arrv xs => { sanitizedData := some (sanitizeReportData gp xs) }

/-! ## DataIntegrityValidator

Embedding of count validation and cross-validation
(src/unnamed/part_002).  calculateSummaryFromRawData accesses
feature.elements on each entry and step.result on each step entry, so a
null feature or a null step entry makes the JS code throw; the thrown
error is swallowed by the try/catch of validateTestCounts, which then
records a validation error and clears isValid.  The two some-calls over
the step array exit early on the first match, so the Except-aware jsSome
reproduces the exact throwing behaviour. -/

/-- Early-exit some over a list with a fallible predicate, as a JS
Array.prototype.some call whose callback may throw. -/
def jsSome (f : α → Except Unit Bool) : List α → Except Unit Bool
  | [] => .ok false
  | x :: t => do
    if (← f x) then pure true else jsSome f t

/-- Status value read by calculateSummaryFromRawData from one step entry:
result.status when a result object is present, else the step status; a
null step entry throws. -/
def rawStepStatus : Option StepR → Except Unit JVal
  | none => .error ()
  | some st =>
    match st.result with
    | some r => .ok r.status
    | none => .ok st.status

/-- Running summary computed from raw report data. -/
structure RawSummary where
  features : Nat
  scenarios : Nat
  steps : Nat
  passed : Nat
  failed : Nat
  skipped : Nat
  errors : Nat
deriving DecidableEq

/-- The all-zero summary. -/
def zeroRawSummary : RawSummary :=
  { features := 0, scenarios := 0, steps := 0, passed := 0, failed := 0,
    skipped := 0, errors := 0 }

/-- Bump the counter selected by the simple per-scenario status switch. -/
def bumpRawSummary (acc : RawSummary) (status : String) : RawSummary :=
  if status = "passed" then { acc with passed := acc.passed + 1 }
  else if status = "failed" then { acc with failed := acc.failed + 1 }
  else if status = "skipped" then { acc with skipped := acc.skipped + 1 }
  else { acc with errors := acc.errors + 1 }

/-- Steps array read off a scenario entry by the raw-summary loop. -/
def entrySteps : SEntry → JArr (Option StepR)
  | .jobj s => s.steps
  | _ => .missing

/-- Per-scenario body of calculateSummaryFromRawData: backgrounds are
skipped, step arrays are scanned for failed then passed steps, and
scenarios without a step array count as unknown, hence as errors. -/
def rawScenarioUpdate (acc : RawSummary) (scn : SEntry) : Except Unit RawSummary :=
  match scn with
  | .jnull => .error ()
  | e =>
    if entryType e = .str "background" then .ok acc
    else
      let acc := { acc with scenarios := acc.scenarios + 1 }
      match entrySteps e with
      | .arr xs => do
        let acc := { acc with steps := acc.steps + xs.length }
        let hasFailed ← jsSome
          (fun s => do pure (decide ((← rawStepStatus s) = .str "failed"))) xs
        let hasPassed ← jsSome
          (fun s => do pure (decide ((← rawStepStatus s) = .str "passed"))) xs
        let status := if hasFailed then "failed" else if hasPassed then "passed"
          else "skipped"
        .ok (bumpRawSummary acc status)
      | _ => .ok (bumpRawSummary acc "unknown")

/-- Per-feature body of calculateSummaryFromRawData: the feature counter
always increments, then the element list (elements, else scenarios, else
empty) is folded; a truthy non-array element source makes forEach throw. -/
def rawFeatureUpdate (acc : RawSummary) (fe : FEntry) : Except Unit RawSummary :=
  match fe with
  | .jnull => .error ()
  | .jprim => .ok { acc with features := acc.features + 1 }
  | .jobj f =>
    let acc := { acc with features := acc.features + 1 }
    let picked :=
      if f.elements.truthy then f.elements
      else if f.scenarios.truthy then f.scenarios
      else JArr.arr []
    match picked with
    | .arr ys => ys.foldlM rawScenarioUpdate acc
    | _ => .error ()

/-- Embedding of DataIntegrityValidator.calculateSummaryFromRawData. -/
def calculateSummaryFromRawData : RInput → Except Unit RawSummary
  | .notArr => .ok zeroRawSummary
  | .arrv xs => xs.foldlM rawFeatureUpdate zeroRawSummary

/-- Provided summary handed to validateTestCounts; absent fields behave
as zero through the JS falsy-or. -/
structure SummaryIn where
  scenarios : Option Nat
  passed : Option Nat
  failed : Option Nat
  skipped : Option Nat
  errors : Option Nat
deriving DecidableEq

/-- Discrepancy recorded by validateTestCounts, tagged like the JS type
field. -/
inductive VDisc where
  | count_mismatch (expected calculated : Nat) (difference : Int)
  | cross_validation_mismatch (field : String) (provided calculated : Nat)
      (difference : Int) (tolerance : Nat)
deriving DecidableEq

/-- The JS type string of a validateTestCounts discrepancy. -/
def VDisc.dtype : VDisc → String
  | .count_mismatch .. => "count_mismatch"
  | .cross_validation_mismatch .. => "cross_validation_mismatch"

/-- Result of validateTestCounts; issues records caught internal errors
(by their JS type string). -/
structure VTCRes where
  isValid : Bool
  discrepancies : List VDisc
  issues : List String
deriving DecidableEq

/-- Distance between two naturals, as the JS Math.abs of the difference. -/
def natDist (a b : Nat) : Nat :=
  max a b - min a b

/-- Cross-validation field pass of validateTestCounts: unequal values get
a tolerance floored at one and scaled from the provided value, and only
differences beyond it are flagged. -/
def vtcField (tolPct : Nat) (fname : String) (provided calculated : Nat) : Option VDisc :=
  if provided = calculated then none
  else
    let tolerance := max 1 (provided * tolPct / 100)
    let difference := natDist provided calculated
    if difference > tolerance then
      some (.cross_validation_mismatch fname provided calculated
        ((calculated : Int) - (provided : Int)) tolerance)
    else none

/-- Embedding of DataIntegrityValidator.validateTestCounts. -/
def validateTestCounts (tolPct : Nat) (summary : SummaryIn) (reportData : Option RInput) :
    VTCRes :=
  let totalTests := summary.scenarios.getD 0
  let passed := summary.passed.getD 0
  let failed := summary.failed.getD 0
  let skipped := summary.skipped.getD 0
  let errors := summary.errors.getD 0
  let expectedTotal := passed + failed + skipped + errors
  let internal : List VDisc :=
    if expectedTotal ≠ totalTests then
      [.count_mismatch totalTests expectedTotal
        ((expectedTotal : Int) - (totalTests : Int))]
    else []
  match reportData with
  | some (.arrv xs) =>
    match calculateSummaryFromRawData (.arrv xs) with
    | .error _ =>
      { isValid := false, discrepancies := internal, issues := ["validation_error"] }
    | .ok calcd =>
      let cross := List.filterMap id
        [vtcField tolPct "scenarios" totalTests calcd.scenarios,
         vtcField tolPct "passed" passed calcd.passed,
         vtcField tolPct "failed" failed calcd.failed,
         vtcField tolPct "skipped" skipped calcd.skipped]
      { isValid := internal.isEmpty && cross.isEmpty,
        discrepancies := internal ++ cross, issues := [] }
  | _ =>
    { isValid := internal.isEmpty, discrepancies := internal, issues := [] }

/-- Count set compared by compareCountSets; absent fields behave as zero
through the JS falsy-or. -/
structure CountSet where
  features : Option Nat
  scenarios : Option Nat
  steps : Option Nat
  passed : Option Nat
  failed : Option Nat
  skipped : Option Nat
  errors : Option Nat
deriving DecidableEq

/-- Tolerance used by compareCountSets: at least one unit, otherwise the
floor of the larger value scaled by the tolerance percentage. -/
def toleranceFor (tolPct v1 v2 : Nat) : Nat :=
  max 1 (max v1 v2 * tolPct / 100)

/-- Discrepancy recorded by compareCountSets for one field. -/
structure CmpDisc where
  field : String
  value1 : Nat
  value2 : Nat
  difference : Int
  tolerance : Nat
deriving DecidableEq

/-- Field pass of compareCountSets: equal values are consistent, unequal
values are flagged only when their distance exceeds the tolerance. -/
def fieldDiscrepancy (tolPct : Nat) (fname : String) (o1 o2 : Option Nat) : Option CmpDisc :=
  let v1 := o1.getD 0
  let v2 := o2.getD 0
  if v1 = v2 then none
  else
    let tol := toleranceFor tolPct v1 v2
    if natDist v1 v2 > tol then
      some { field := fname, value1 := v1, value2 := v2,
             difference := (v2 : Int) - (v1 : Int), tolerance := tol }
    else none

/-- Result of compareCountSets. -/
structure ComparisonR where
  comparisonType : String
  isConsistent : Bool
  discrepancies : List CmpDisc
  tolerance : Nat
deriving DecidableEq

/-- Embedding of DataIntegrityValidator.compareCountSets: the six count
fields are compared in order and isConsistent is cleared exactly when a
discrepancy is pushed. -/
def compareCountSets (tolPct : Nat) (c1 c2 : CountSet) (comparisonType : String) :
    ComparisonR :=
  let ds := List.filterMap id
    [fieldDiscrepancy tolPct "features" c1.features c2.features,
     fieldDiscrepancy tolPct "scenarios" c1.scenarios c2.scenarios,
     fieldDiscrepancy tolPct "steps" c1.steps c2.steps,
     fieldDiscrepancy tolPct "passed" c1.passed c2.passed,
     fieldDiscrepancy tolPct "failed" c1.failed c2.failed,
     fieldDiscrepancy tolPct "skipped" c1.skipped c2.skipped]
  { comparisonType := comparisonType, isConsistent := ds.isEmpty,
    discrepancies := ds, tolerance := tolPct }

/-! ## Status-resolver lemmas -/

/-- Normalized before-hook list of a scenario: the array when present,
otherwise the empty list that the guarded loop effectively sees. -/
def beforeHooks (sc : ScenarioR) : List (Option HookR) :=
  match sc.before with
  | .arr xs => xs
  | _ => []

/-- Normalized after-hook list of a scenario. -/
def afterHooks (sc : ScenarioR) : List (Option HookR) :=
  match sc.after with
  | .arr xs => xs
  | _ => []

/-- Normalized step list of a scenario. -/
def stepsList (sc : ScenarioR) : List (Option StepR) :=
  match sc.steps with
  | .arr xs => xs
  | _ => []

/-- The hook loop reports failed when some hook has failed status. -/
theorem hookLoop_failed (xs : List (Option HookR)) (cur : String)
    (h : ∃ x ∈ xs, getHookStatus x = .str "failed") :
    (hookLoop xs cur).1 = "failed" := by
  induction xs generalizing cur with
  | nil =>
    obtain ⟨x, hx, _⟩ := h
    cases hx
  | cons a t ih =>
    obtain ⟨x, hx, hfx⟩ := h
    by_cases ha : getHookStatus a = .str "failed"
    · simp [hookLoop, ha]
    · rcases List.mem_cons.mp hx with rfl | hxt
      · exact absurd hfx ha
      · unfold hookLoop
        rw [if_neg ha]
        by_cases hp : getHookStatus a = .str "passed"
        · rw [if_pos hp]
          exact ih "passed" ⟨x, hxt, hfx⟩
        · rw [if_neg hp]
          exact ih cur ⟨x, hxt, hfx⟩

/-- The hook loop cannot report failed when no hook has failed status. -/
theorem hookLoop_not_failed (xs : List (Option HookR)) (cur : String)
    (hcur : cur ≠ "failed")
    (h : ∀ x ∈ xs, getHookStatus x ≠ .str "failed") :
    (hookLoop xs cur).1 ≠ "failed" := by
  induction xs generalizing cur with
  | nil => simpa [hookLoop] using hcur
  | cons a t ih =>
    have ha : getHookStatus a ≠ .str "failed" := h a (List.mem_cons_self a t)
    have ht : ∀ x ∈ t, getHookStatus x ≠ .str "failed" :=
      fun x hx => h x (List.mem_cons_of_mem a hx)
    unfold hookLoop
    rw [if_neg ha]
    by_cases hp : getHookStatus a = .str "passed"
    · rw [if_pos hp]
      exact ih "passed" (by decide) ht
    · rw [if_neg hp]
      exact ih cur hcur ht

/-- A failed before hook makes the setup phase report failed. -/
theorem analyzeSetupPhase_failed (sc : ScenarioR) (xs : List (Option HookR))
    (hb : sc.before = .arr xs)
    (h : ∃ x ∈ xs, getHookStatus x = .str "failed") :
    (analyzeSetupPhase sc).status = "failed" := by
  simp only [analyzeSetupPhase, hb]
  exact hookLoop_failed xs "not_executed" h

/-- Without failed before hooks the setup phase never reports failed. -/
theorem analyzeSetupPhase_not_failed (sc : ScenarioR)
    (h : ∀ x ∈ beforeHooks sc, getHookStatus x ≠ .str "failed") :
    (analyzeSetupPhase sc).status ≠ "failed" := by
  unfold analyzeSetupPhase
  unfold beforeHooks at h
  cases hb : sc.before with
  | arr xs =>
    rw [hb] at h
    exact hookLoop_not_failed xs "not_executed" (by decide) h
  | missing => simp
  | fprim => simp
  | tprim => simp

/-- Without failed after hooks the teardown phase never reports failed. -/
theorem analyzeTeardownPhase_not_failed (sc : ScenarioR)
    (h : ∀ x ∈ afterHooks sc, getHookStatus x ≠ .str "failed") :
    (analyzeTeardownPhase sc).status ≠ "failed" := by
  unfold analyzeTeardownPhase
  unfold afterHooks at h
  cases hb : sc.after with
  | arr xs =>
    rw [hb] at h
    exact hookLoop_not_failed xs "not_executed" (by decide) h
  | missing => simp
  | fprim => simp
  | tprim => simp

/-- A setup failure under the setup-failure policy forces overall failed
with a reason citing the setup failure. -/
theorem determineOverallStatus_setup_failed (opts : CalcOptions)
    (su ex td : PhaseResult)
    (hflag : opts.treatSetupFailuresAsFailed = true)
    (hsu : su.status = "failed") :
    determineOverallStatus opts su ex td =
      { status := "failed",
        reason := "Setup failed: " ++ strOrDefault su.failureReason "Before hook failed" } := by
  unfold determineOverallStatus
  rw [if_pos]
  simp [hflag, hsu]

/-- Unfolding of calculateScenarioStatus on a scenario object. -/
theorem calculateScenarioStatus_jobj (opts : CalcOptions) (sc : ScenarioR) :
    calculateScenarioStatus opts (.jobj sc) =
      { status := (determineOverallStatus opts (analyzeSetupPhase sc)
          (analyzeExecutionPhase sc) (analyzeTeardownPhase sc)).status,
        reason := (determineOverallStatus opts (analyzeSetupPhase sc)
          (analyzeExecutionPhase sc) (analyzeTeardownPhase sc)).reason,
        details := some
          { setupStatus := (analyzeSetupPhase sc).status,
            executionStatus := (analyzeExecutionPhase sc).status,
            teardownStatus := (analyzeTeardownPhase sc).status,
            hasSteps := (analyzeExecutionPhase sc).hasSteps,
            hasSetup := (analyzeSetupPhase sc).hasHooks,
            hasTeardown := (analyzeTeardownPhase sc).hasHooks } } := rfl

/-- Execution phase reports mixed when steps hold a passed and a skipped
step and no failed one. -/
theorem analyzeExecutionPhase_mixed (sc : ScenarioR) (sts : List (Option StepR))
    (hs : sc.steps = .arr sts)
    (hp : ∃ st ∈ sts, getStepStatus st = .str "passed")
    (hsk : ∃ st ∈ sts, getStepStatus st = .str "skipped")
    (hnf : ∀ st ∈ sts, getStepStatus st ≠ .str "failed") :
    (analyzeExecutionPhase sc).status = "mixed" := by
  have hP : sts.any (fun st => decide (getStepStatus st = .str "passed")) = true := by
    rw [List.any_eq_true]
    obtain ⟨st, h1, h2⟩ := hp
    exact ⟨st, h1, by simp [h2]⟩
  have hS : sts.any (fun st => decide (getStepStatus st = .str "skipped")) = true := by
    rw [List.any_eq_true]
    obtain ⟨st, h1, h2⟩ := hsk
    exact ⟨st, h1, by simp [h2]⟩
  have hF : sts.any (fun st => decide (getStepStatus st = .str "failed")) = false := by
    rw [List.any_eq_false]
    intro st h1
    simp [hnf st h1]
  simp [analyzeExecutionPhase, hs, hP, hS, hF]

/-- Mixed execution with healthy hooks resolves to overall failed. -/
theorem determineOverallStatus_mixed_failed (opts : CalcOptions)
    (su ex td : PhaseResult)
    (hsu : su.status ≠ "failed") (htd : td.status ≠ "failed")
    (hex : ex.status = "mixed") :
    (determineOverallStatus opts su ex td).status = "failed" := by
  unfold determineOverallStatus
  simp [hsu, htd, hex]

/-- C1: under the default configuration, a before hook whose
result.status is failed forces resolveScenarioStatus to report failed
with a reason citing the setup failure, whatever the steps contain. -/
theorem setup_failure_precedence
    (sc : ScenarioR) (hooks : List (Option HookR)) (hk : HookR) (res : ResultR)
    (hb : sc.before = .arr hooks) (hmem : some hk ∈ hooks)
    (hr : hk.result = some res) (hst : res.status = .str "failed") :
    (calculateScenarioStatus defaultCalcOptions (.jobj sc)).status = "failed" ∧
    ∃ m, (calculateScenarioStatus defaultCalcOptions (.jobj sc)).reason =
      "Setup failed: " ++ m := by
  have hghs : getHookStatus (some hk) = .str "failed" := by
    simp [getHookStatus, hr, hst, jvalOr, JVal.truthy]
  have hsu := analyzeSetupPhase_failed sc hooks hb ⟨some hk, hmem, hghs⟩
  have key := determineOverallStatus_setup_failed defaultCalcOptions
    (analyzeSetupPhase sc) (analyzeExecutionPhase sc) (analyzeTeardownPhase sc)
    rfl hsu
  rw [calculateScenarioStatus_jobj]
  constructor
  · rw [key]
  · exact ⟨strOrDefault (analyzeSetupPhase sc).failureReason "Before hook failed",
      by rw [key]⟩

/-- Witness result object with status failed. -/
def witnessFailedResult : ResultR :=
  { status := .str "failed", duration := some 5,
    error_message := .str "boom", errorMessage := .missing }

/-- Hook carrying the failed witness result. -/
def witnessFailedHook : HookR :=
  { result := some witnessFailedResult,
    status := .missing, matchv := none, error_message := .missing }

/-- Result object with status passed. -/
def witnessPassedResult : ResultR :=
  { status := .str "passed", duration := some 1,
    error_message := .missing, errorMessage := .missing }

/-- A step whose result status is passed. -/
def witnessPassedStep : StepR :=
  { name := .str "a step", keyword := .str "Given ",
    result := some witnessPassedResult,
    status := .missing, error_message := .missing }

/-- Result object with status skipped. -/
def witnessSkippedResult : ResultR :=
  { status := .str "skipped", duration := some 0,
    error_message := .missing, errorMessage := .missing }

/-- A step whose result status is skipped. -/
def witnessSkippedStep : StepR :=
  { name := .str "later step", keyword := .str "Then ",
    result := some witnessSkippedResult,
    status := .missing, error_message := .missing }

/-- Scenario with a failed before hook and a passed step. -/
def witnessSetupFailScenario : ScenarioR :=
  { name := .str "sc", id := .str "sc-1", type := .str "scenario",
    steps := .arr [some witnessPassedStep],
    before := .arr [some witnessFailedHook], after := .missing }

/-- Witness for the setup-failure precedence theorem at a concrete
scenario. -/
theorem setup_failure_precedence_witness :
    (calculateScenarioStatus defaultCalcOptions (.jobj witnessSetupFailScenario)).status
      = "failed" ∧
    ∃ m, (calculateScenarioStatus defaultCalcOptions
      (.jobj witnessSetupFailScenario)).reason = "Setup failed: " ++ m :=
  setup_failure_precedence witnessSetupFailScenario [some witnessFailedHook]
    witnessFailedHook witnessFailedResult
    rfl (List.mem_singleton.mpr rfl) rfl rfl

/-- C2: a scenario with no failed hooks, no failed steps, and a step
list containing at least one passed and one skipped step resolves to
failed under the mixed-result policy. -/
theorem mixed_steps_resolve_failed
    (sc : ScenarioR) (sts : List (Option StepR))
    (hs : sc.steps = .arr sts)
    (hb : ∀ x ∈ beforeHooks sc, getHookStatus x ≠ .str "failed")
    (ha : ∀ x ∈ afterHooks sc, getHookStatus x ≠ .str "failed")
    (hp : ∃ st ∈ sts, getStepStatus st = .str "passed")
    (hsk : ∃ st ∈ sts, getStepStatus st = .str "skipped")
    (hnf : ∀ st ∈ sts, getStepStatus st ≠ .str "failed") :
    (calculateScenarioStatus defaultCalcOptions (.jobj sc)).status = "failed" := by
  rw [calculateScenarioStatus_jobj]
  exact determineOverallStatus_mixed_failed defaultCalcOptions _ _ _
    (analyzeSetupPhase_not_failed sc hb)
    (analyzeTeardownPhase_not_failed sc ha)
    (analyzeExecutionPhase_mixed sc sts hs hp hsk hnf)

/-- Scenario with a passed step followed by a skipped step and no hooks. -/
def witnessMixedScenario : ScenarioR :=
  { name := .str "mx", id := .str "mx-1", type := .str "scenario",
    steps := .arr [some witnessPassedStep, some witnessSkippedStep],
    before := .missing, after := .missing }

/-- Witness for the mixed-result theorem at a concrete scenario. -/
theorem mixed_steps_resolve_failed_witness :
    (calculateScenarioStatus defaultCalcOptions (.jobj witnessMixedScenario)).status
      = "failed" :=
  mixed_steps_resolve_failed witnessMixedScenario
    [some witnessPassedStep, some witnessSkippedStep]
    rfl (by intro x hx; simp [beforeHooks, witnessMixedScenario] at hx)
    (by intro x hx; simp [afterHooks, witnessMixedScenario] at hx)
    ⟨some witnessPassedStep, by simp, by rfl⟩
    ⟨some witnessSkippedStep, by simp, by rfl⟩
    (by
      intro st hst
      rcases List.mem_cons.mp hst with rfl | hst2
      · simp [getStepStatus, witnessPassedStep, witnessPassedResult, jvalOr, JVal.truthy]
      · rcases List.mem_cons.mp hst2 with rfl | hst3
        · simp [getStepStatus, witnessSkippedStep, witnessSkippedResult, jvalOr, JVal.truthy]
        · cases hst3)

/-- Setup phase of a scenario without before hooks. -/
theorem analyzeSetupPhase_empty (sc : ScenarioR) (h : beforeHooks sc = []) :
    analyzeSetupPhase sc =
      { status := "not_executed", hasHooks := false, hasSteps := false,
        failureReason := none } := by
  unfold analyzeSetupPhase
  unfold beforeHooks at h
  cases hb : sc.before with
  | arr xs =>
    rw [hb] at h
    subst h
    simp [hookLoop]
  | missing => rfl
  | fprim => rfl
  | tprim => rfl

/-- Teardown phase of a scenario without after hooks. -/
theorem analyzeTeardownPhase_empty (sc : ScenarioR) (h : afterHooks sc = []) :
    analyzeTeardownPhase sc =
      { status := "not_executed", hasHooks := false, hasSteps := false,
        failureReason := none } := by
  unfold analyzeTeardownPhase
  unfold afterHooks at h
  cases hb : sc.after with
  | arr xs =>
    rw [hb] at h
    subst h
    simp [hookLoop]
  | missing => rfl
  | fprim => rfl
  | tprim => rfl

/-- Execution phase of a scenario without steps. -/
theorem analyzeExecutionPhase_empty (sc : ScenarioR) (h : stepsList sc = []) :
    analyzeExecutionPhase sc =
      { status := "not_executed", hasHooks := false, hasSteps := false,
        failureReason := none } := by
  unfold analyzeExecutionPhase
  unfold stepsList at h
  cases hb : sc.steps with
  | arr xs =>
    rw [hb] at h
    subst h
    simp
  | missing => rfl
  | fprim => rfl
  | tprim => rfl

/-- Healthy hooks with a step phase of status not executed and no steps
resolve to skipped with the no-executable-steps reason. -/
theorem determineOverallStatus_no_steps (opts : CalcOptions)
    (su ex td : PhaseResult)
    (hsu : su.status ≠ "failed") (htd : td.status ≠ "failed")
    (hex : ex.status = "not_executed") (hhs : ex.hasSteps = false) :
    determineOverallStatus opts su ex td =
      { status := "skipped", reason := "No executable steps found" } := by
  unfold determineOverallStatus
  simp [hsu, htd, hex, hhs]

/-- C7 (amended): a scenario with no steps and no before/after hooks
resolves to skipped with reason citing the absence of executable steps,
under any configuration. -/
theorem no_steps_no_hooks_skipped (opts : CalcOptions) (sc : ScenarioR)
    (h1 : stepsList sc = []) (h2 : beforeHooks sc = []) (h3 : afterHooks sc = []) :
    (calculateScenarioStatus opts (.jobj sc)).status = "skipped" ∧
    (calculateScenarioStatus opts (.jobj sc)).reason = "No executable steps found" := by
  rw [calculateScenarioStatus_jobj]
  rw [analyzeSetupPhase_empty sc h2, analyzeTeardownPhase_empty sc h3,
    analyzeExecutionPhase_empty sc h1]
  rw [determineOverallStatus_no_steps opts _ _ _ (by decide) (by decide) rfl rfl]
  exact ⟨rfl, rfl⟩

/-- Scenario object carrying no steps and no hooks at all. -/
def witnessEmptyScenario : ScenarioR :=
  { name := .missing, id := .missing, type := .missing,
    steps := .missing, before := .missing, after := .missing }

/-- Witness for the no-steps-no-hooks theorem at a concrete scenario. -/
theorem no_steps_no_hooks_skipped_witness :
    (calculateScenarioStatus defaultCalcOptions (.jobj witnessEmptyScenario)).status
      = "skipped" ∧
    (calculateScenarioStatus defaultCalcOptions (.jobj witnessEmptyScenario)).reason
      = "No executable steps found" :=
  no_steps_no_hooks_skipped defaultCalcOptions witnessEmptyScenario rfl rfl rfl

/-- C7 (counterexample): the scenario with no steps and no hooks
resolves to skipped, not to unknown as claimed. -/
theorem no_steps_no_hooks_not_unknown :
    (calculateScenarioStatus defaultCalcOptions (.jobj witnessEmptyScenario)).status
      = "skipped" ∧
    (calculateScenarioStatus defaultCalcOptions (.jobj witnessEmptyScenario)).status
      ≠ "unknown" := by
  constructor
  · rfl
  · intro h
    rw [show (calculateScenarioStatus defaultCalcOptions
      (.jobj witnessEmptyScenario)).status = "skipped" from rfl] at h
    exact absurd h (by decide)

/-- Overall status determination never yields the error status. -/
theorem determineOverallStatus_ne_error (opts : CalcOptions) (su ex td : PhaseResult) :
    (determineOverallStatus opts su ex td).status ≠ "error" := by
  unfold determineOverallStatus
  split_ifs <;> simp

/-- C8 (amended): malformed scenario input never throws and never yields
status error: every falsy input, null/undefined as well as any other
falsy primitive, takes the early return with status unknown and a
descriptive reason, any truthy non-object input resolves to skipped, and
no input at all resolves to error. -/
theorem malformed_scenario_never_error (opts : CalcOptions) :
    calculateScenarioStatus opts .jnull =
      { status := "unknown", reason := "Scenario is null or undefined",
        details := none } ∧
    calculateScenarioStatus opts .jfalsy =
      { status := "unknown", reason := "Scenario is null or undefined",
        details := none } ∧
    (calculateScenarioStatus opts .jprim).status = "skipped" ∧
    ∀ e : SEntry, (calculateScenarioStatus opts e).status ≠ "error" := by
  refine ⟨rfl, rfl, ?_, ?_⟩
  · have hj : calculateScenarioStatus opts .jprim =
        calculateScenarioStatus opts (.jobj witnessEmptyScenario) := rfl
    rw [hj]
    exact (no_steps_no_hooks_skipped opts witnessEmptyScenario rfl rfl rfl).1
  · intro e
    cases e with
    | jnull =>
      intro h
      have h2 : ("unknown" : String) = "error" := h
      exact absurd h2 (by decide)
    | jfalsy =>
      intro h
      have h2 : ("unknown" : String) = "error" := h
      exact absurd h2 (by decide)
    | jprim =>
      have hj : calculateScenarioStatus opts .jprim =
          calculateScenarioStatus opts (.jobj witnessEmptyScenario) := rfl
      rw [hj, calculateScenarioStatus_jobj]
      exact determineOverallStatus_ne_error opts _ _ _
    | jobj sc =>
      rw [calculateScenarioStatus_jobj]
      exact determineOverallStatus_ne_error opts _ _ _

/-- C8 (counterexample): null scenario input resolves to unknown, not to
the claimed error status. -/
theorem malformed_scenario_not_error_at_null :
    (calculateScenarioStatus defaultCalcOptions .jnull).status = "unknown" ∧
    (calculateScenarioStatus defaultCalcOptions .jnull).status ≠ "error" := by
  exact ⟨rfl, by intro h; exact absurd h (by decide)⟩


/-- Each step of the scenario-counting fold adds exactly one to the sum
of the four counters. -/
theorem countScenario_sum (opts : CalcOptions) (acc : Nat × Nat × Nat × Nat)
    (e : SEntry) :
    (countScenario opts acc e).1 + (countScenario opts acc e).2.1 +
      (countScenario opts acc e).2.2.1 + (countScenario opts acc e).2.2.2 =
    acc.1 + acc.2.1 + acc.2.2.1 + acc.2.2.2 + 1 := by
  unfold countScenario
  by_cases h1 : (calculateScenarioStatus opts e).status = "passed"
  · simp [h1]
    omega
  · by_cases h2 : (calculateScenarioStatus opts e).status = "failed"
    · simp [h1, h2]
      omega
    · by_cases h3 : (calculateScenarioStatus opts e).status = "skipped"
      · simp [h1, h2, h3]
        omega
      · simp [h1, h2, h3]
        omega

/-- The scenario-counting fold adds the list length to the counter sum. -/
theorem countScenario_foldl_sum (opts : CalcOptions) (l : List SEntry)
    (acc : Nat × Nat × Nat × Nat) :
    (l.foldl (countScenario opts) acc).1 + (l.foldl (countScenario opts) acc).2.1 +
      (l.foldl (countScenario opts) acc).2.2.1 +
      (l.foldl (countScenario opts) acc).2.2.2 =
    acc.1 + acc.2.1 + acc.2.2.1 + acc.2.2.2 + l.length := by
  induction l generalizing acc with
  | nil => simp
  | cons a t ih =>
    simp only [List.foldl_cons, List.length_cons]
    rw [ih (countScenario opts acc a), countScenario_sum]
    omega

/-- Counts record produced by the scenario-counting fold. -/
def foldCounts (opts : CalcOptions) (l : List SEntry) : CountsR :=
  { passed := (l.foldl (countScenario opts) (0, 0, 0, 0)).1,
    failed := (l.foldl (countScenario opts) (0, 0, 0, 0)).2.1,
    skipped := (l.foldl (countScenario opts) (0, 0, 0, 0)).2.2.1,
    errors := (l.foldl (countScenario opts) (0, 0, 0, 0)).2.2.2,
    total := l.length }

/-- The counted feature status carries exactly the fold counts. -/
theorem featureStatusCounted_counts (opts : CalcOptions) (l : List SEntry) :
    (featureStatusCounted opts l).counts = some (foldCounts opts l) := rfl

/-- Unfolding of the elements dispatch on an actual array. -/
theorem featureStatusFromElems_arr (opts : CalcOptions) (xs : List SEntry) :
    featureStatusFromElems opts (.arr xs) =
      if xs.any (fun e => e = SEntry.jnull) then .error ()
      else if (nonBackgroundElems xs).length = 0 then
        .ok { status := "unknown", reason := "No executable scenarios found",
              counts := none }
      else .ok (featureStatusCounted opts (nonBackgroundElems xs)) := rfl

/-- C3: whenever resolveFeatureStatus returns counts, the four counters
sum to the total, and the total is the number of non-background
elements. -/
theorem feature_counts_conserved (opts : CalcOptions) (fr : FeatureR)
    (xs : List SEntry) (r : FeatStatusR) (c : CountsR)
    (hel : fr.elements = .arr xs)
    (hok : calculateFeatureStatus opts (some fr) = .ok r)
    (hc : r.counts = some c) :
    c.passed + c.failed + c.skipped + c.errors = c.total ∧
    c.total = (nonBackgroundElems xs).length := by
  have h1 : calculateFeatureStatus opts (some fr) =
      featureStatusFromElems opts fr.elements := rfl
  rw [h1, hel, featureStatusFromElems_arr] at hok
  split at hok
  · simp at hok
  · split at hok
    · injection hok with h
      rw [← h] at hc
      simp at hc
    · injection hok with h
      subst h
      rw [featureStatusCounted_counts] at hc
      have hc2 := Option.some.inj hc
      rw [← hc2]
      constructor
      · have hsum := countScenario_foldl_sum opts (nonBackgroundElems xs) (0, 0, 0, 0)
        simpa [foldCounts] using hsum
      · rfl

/-- A feature with two ordinary scenarios used as conservation witness. -/
def witnessFeature : FeatureR :=
  { name := .str "F",
    elements := .arr [.jobj witnessSetupFailScenario, .jobj witnessMixedScenario],
    scenarios := .missing }

/-- Witness for the conservation theorem at a concrete feature, whose
two scenarios both resolve to failed. -/
theorem feature_counts_conserved_witness :
    (0 : Nat) + 2 + 0 + 0 = 2 ∧
    (2 : Nat) = (nonBackgroundElems
      [.jobj witnessSetupFailScenario, .jobj witnessMixedScenario]).length := by
  have h := feature_counts_conserved defaultCalcOptions witnessFeature
    [.jobj witnessSetupFailScenario, .jobj witnessMixedScenario]
    (featureStatusCounted defaultCalcOptions
      (nonBackgroundElems [.jobj witnessSetupFailScenario, .jobj witnessMixedScenario]))
    { passed := 0, failed := 2, skipped := 0, errors := 0, total := 2 }
    rfl rfl (by rfl)
  simpa using h

/-- C10: a feature whose elements field is missing or falsy, or whose
elements are all background scenarios, resolves to unknown with no
counts at all, while the normal counted path always carries counts. -/
theorem featureStatus_unknown_shapes (opts : CalcOptions) (fr : FeatureR)
    (xs : List SEntry) :
    ((fr.elements = .missing ∨ fr.elements = .fprim) →
      calculateFeatureStatus opts (some fr) =
        .ok { status := "unknown", reason := "Feature has no scenarios",
              counts := none }) ∧
    (fr.elements = .arr xs →
      (∀ e ∈ xs, ∃ s, e = SEntry.jobj s ∧ s.type = .str "background") →
      calculateFeatureStatus opts (some fr) =
        .ok { status := "unknown", reason := "No executable scenarios found",
              counts := none }) ∧
    (fr.elements = .arr xs →
      xs.any (fun e => decide (e = SEntry.jnull)) = false →
      (nonBackgroundElems xs).length ≠ 0 →
      ∃ r, calculateFeatureStatus opts (some fr) = .ok r ∧ ∃ c, r.counts = some c) := by
  have h1 : calculateFeatureStatus opts (some fr) =
      featureStatusFromElems opts fr.elements := rfl
  refine ⟨?_, ?_, ?_⟩
  · intro h
    rw [h1]
    rcases h with h | h <;> rw [h] <;> rfl
  · intro hel hall
    rw [h1, hel, featureStatusFromElems_arr]
    have hnn : xs.any (fun e => decide (e = SEntry.jnull)) = false := by
      rw [List.any_eq_false]
      intro e he
      obtain ⟨s, hs, _⟩ := hall e he
      simp [hs]
    have hfil : nonBackgroundElems xs = [] := by
      unfold nonBackgroundElems
      rw [List.filter_eq_nil_iff]
      intro e he
      obtain ⟨s, hs, ht⟩ := hall e he
      simp [hs, entryType, ht]
    rw [if_neg (by simp [hnn]), if_pos (by rw [hfil]; rfl)]
  · intro hel hnn hz
    rw [h1, hel, featureStatusFromElems_arr]
    rw [if_neg (by simp [hnn]), if_neg hz]
    exact ⟨_, rfl, _, featureStatusCounted_counts opts (nonBackgroundElems xs)⟩

/-- Feature whose elements are missing, used as a witness. -/
def witnessNoElementsFeature : FeatureR :=
  { name := .str "NE", elements := .missing, scenarios := .missing }

/-- Background-only scenario object. -/
def witnessBackgroundScenario : ScenarioR :=
  { name := .str "bg", id := .str "bg-1", type := .str "background",
    steps := .missing, before := .missing, after := .missing }

/-- Feature whose only element is a background. -/
def witnessBackgroundFeature : FeatureR :=
  { name := .str "BG",
    elements := .arr [.jobj witnessBackgroundScenario], scenarios := .missing }

/-- Witness for the unknown-shape theorem at concrete features. -/
theorem featureStatus_unknown_shapes_witness :
    calculateFeatureStatus defaultCalcOptions (some witnessNoElementsFeature) =
      .ok { status := "unknown", reason := "Feature has no scenarios",
            counts := none } ∧
    calculateFeatureStatus defaultCalcOptions (some witnessBackgroundFeature) =
      .ok { status := "unknown", reason := "No executable scenarios found",
            counts := none } := by
  constructor
  · exact (featureStatus_unknown_shapes defaultCalcOptions witnessNoElementsFeature
      []).1 (Or.inl rfl)
  · exact (featureStatus_unknown_shapes defaultCalcOptions witnessBackgroundFeature
      [.jobj witnessBackgroundScenario]).2.1 rfl
      (by
        intro e he
        rcases List.mem_singleton.mp he with rfl
        exact ⟨witnessBackgroundScenario, rfl, rfl⟩)

/-! ## Integrity-checker claims -/

/-- Modelled from the spec wording of the tolerance rule: two values are
consistent when their absolute difference is at most the floor of the
larger value scaled by the tolerance percentage, floored at one.  Stated
separately from the source-derived fieldDiscrepancy so the two can be
compared. -/
def specConsistent (tolPct a b : Nat) : Prop :=
  natDist a b ≤ max 1 (max a b * tolPct / 100)

/-- A field comparison is silent exactly when the distance is within the
tolerance. -/
theorem fieldDiscrepancy_none_iff (tolPct : Nat) (fname : String) (o1 o2 : Option Nat) :
    fieldDiscrepancy tolPct fname o1 o2 = none ↔
      natDist (o1.getD 0) (o2.getD 0) ≤ toleranceFor tolPct (o1.getD 0) (o2.getD 0) := by
  unfold fieldDiscrepancy
  by_cases h : o1.getD 0 = o2.getD 0
  · rw [if_pos h, h]
    simp [natDist, toleranceFor]
  · rw [if_neg h]
    by_cases h2 : natDist (o1.getD 0) (o2.getD 0) >
        toleranceFor tolPct (o1.getD 0) (o2.getD 0)
    · rw [if_pos h2]
      simp
      omega
    · rw [if_neg h2]
      simp
      omega

/-- An id filterMap is empty exactly when every entry is none. -/
theorem filterMap_id_isEmpty {α : Type} (l : List (Option α)) :
    (List.filterMap id l).isEmpty = true ↔ ∀ o ∈ l, o = none := by
  rw [List.isEmpty_iff, List.filterMap_eq_nil_iff]
  simp

/-- C4: a compared field is consistent exactly within the
absolute-relative tolerance with floor one; equality at the tolerance is
silent, one more unit is flagged, and the comparison as a whole is
consistent exactly when all six fields are. -/
theorem crossValidate_tolerance_boundary (tolPct v1 v2 : Nat) (fname ct : String)
    (c1 c2 : CountSet) :
    (fieldDiscrepancy tolPct fname (some v1) (some v2) = none ↔
      specConsistent tolPct v1 v2) ∧
    (natDist v1 v2 = toleranceFor tolPct v1 v2 →
      fieldDiscrepancy tolPct fname (some v1) (some v2) = none) ∧
    (natDist v1 v2 = toleranceFor tolPct v1 v2 + 1 →
      fieldDiscrepancy tolPct fname (some v1) (some v2) ≠ none) ∧
    ((compareCountSets tolPct c1 c2 ct).isConsistent = true ↔
      (specConsistent tolPct (c1.features.getD 0) (c2.features.getD 0) ∧
       specConsistent tolPct (c1.scenarios.getD 0) (c2.scenarios.getD 0) ∧
       specConsistent tolPct (c1.steps.getD 0) (c2.steps.getD 0) ∧
       specConsistent tolPct (c1.passed.getD 0) (c2.passed.getD 0) ∧
       specConsistent tolPct (c1.failed.getD 0) (c2.failed.getD 0) ∧
       specConsistent tolPct (c1.skipped.getD 0) (c2.skipped.getD 0))) := by
  have hiff : ∀ o1 o2 : Option Nat, ∀ nm : String,
      fieldDiscrepancy tolPct nm o1 o2 = none ↔
        specConsistent tolPct (o1.getD 0) (o2.getD 0) := by
    intro o1 o2 nm
    exact fieldDiscrepancy_none_iff tolPct nm o1 o2
  refine ⟨by simpa using hiff (some v1) (some v2) fname, ?_, ?_, ?_⟩
  · intro h
    rw [fieldDiscrepancy_none_iff]
    simp only [Option.getD_some]
    omega
  · intro h hcon
    rw [fieldDiscrepancy_none_iff] at hcon
    simp only [Option.getD_some] at hcon
    omega
  · unfold compareCountSets
    simp only []
    rw [filterMap_id_isEmpty]
    constructor
    · intro h
      refine ⟨(hiff c1.features c2.features "features").mp ?_,
        (hiff c1.scenarios c2.scenarios "scenarios").mp ?_,
        (hiff c1.steps c2.steps "steps").mp ?_,
        (hiff c1.passed c2.passed "passed").mp ?_,
        (hiff c1.failed c2.failed "failed").mp ?_,
        (hiff c1.skipped c2.skipped "skipped").mp ?_⟩ <;>
      exact h _ (by simp)
    · intro hg o ho
      obtain ⟨g1, g2, g3, g4, g5, g6⟩ := hg
      rcases List.mem_cons.mp ho with rfl | ho
      · exact (hiff _ _ _).mpr g1
      rcases List.mem_cons.mp ho with rfl | ho
      · exact (hiff _ _ _).mpr g2
      rcases List.mem_cons.mp ho with rfl | ho
      · exact (hiff _ _ _).mpr g3
      rcases List.mem_cons.mp ho with rfl | ho
      · exact (hiff _ _ _).mpr g4
      rcases List.mem_cons.mp ho with rfl | ho
      · exact (hiff _ _ _).mpr g5
      rcases List.mem_cons.mp ho with rfl | ho
      · exact (hiff _ _ _).mpr g6
      cases ho

/-- Witness for the tolerance-boundary theorem: counts of 40 under the
default 5 percent tolerance give a tolerance of 2; a distance of exactly
2 is silent and a distance of 3 is flagged. -/
theorem crossValidate_tolerance_boundary_witness :
    fieldDiscrepancy 5 "passed" (some 40) (some 38) = none ∧
    fieldDiscrepancy 5 "passed" (some 40) (some 37) ≠ none := by
  constructor
  · exact (crossValidate_tolerance_boundary 5 40 38 "passed" "t"
      { features := none, scenarios := none, steps := none, passed := none,
        failed := none, skipped := none, errors := none }
      { features := none, scenarios := none, steps := none, passed := none,
        failed := none, skipped := none, errors := none }).2.1 (by decide)
  · exact (crossValidate_tolerance_boundary 5 40 37 "passed" "t"
      { features := none, scenarios := none, steps := none, passed := none,
        failed := none, skipped := none, errors := none }
      { features := none, scenarios := none, steps := none, passed := none,
        failed := none, skipped := none, errors := none }).2.2.1 (by decide)

/-- Provided summary of spec scenario four. -/
def c5Summary : SummaryIn :=
  { scenarios := some 10, passed := some 7, failed := some 2,
    skipped := some 1, errors := none }

/-- Internally inconsistent variant of the provided summary. -/
def c5SummaryBad : SummaryIn :=
  { scenarios := some 10, passed := some 7, failed := some 2,
    skipped := some 2, errors := none }

/-- Result object carrying the given status. -/
def c5Result (st : String) : ResultR :=
  { status := .str st, duration := none,
    error_message := .missing, errorMessage := .missing }

/-- One-step step with the given result status. -/
def c5Step (st : String) : StepR :=
  { name := .missing, keyword := .missing, result := some (c5Result st),
    status := .missing, error_message := .missing }

/-- Scenario whose single step has the given result status. -/
def c5Scenario (st : String) : SEntry :=
  .jobj { name := .missing, id := .missing, type := .missing,
          steps := .arr [some (c5Step st)], before := .missing, after := .missing }

/-- Feature with seven passed, two failed and two skipped scenarios. -/
def c5Feature : FeatureR :=
  { name := .str "F",
    elements := .arr (List.replicate 7 (c5Scenario "passed") ++
      List.replicate 2 (c5Scenario "failed") ++ List.replicate 2 (c5Scenario "skipped")),
    scenarios := .missing }

/-- Raw report of spec scenario four: eleven scenarios computing to
seven passed, two failed, two skipped. -/
def c5Raw : List FEntry := [FEntry.jobj c5Feature]

/-- C5 (counterexample): with the provided summary of spec scenario four
and the raw report computing eleven scenarios, validateTestCounts flags
nothing and stays valid, because the provided summary is internally
consistent and every cross-validation difference of one is within the
tolerance floor of one. -/
theorem validateCounts_scenario4_counterexample :
    (validateTestCounts 5 c5Summary (some (.arrv c5Raw))).isValid = true ∧
    (validateTestCounts 5 c5Summary (some (.arrv c5Raw))).discrepancies = [] ∧
    calculateSummaryFromRawData (.arrv c5Raw) = .ok
      { features := 1, scenarios := 11, steps := 11, passed := 7, failed := 2,
        skipped := 2, errors := 0 } := by
  refine ⟨rfl, rfl, rfl⟩

/-- C5 (amended): on spec scenario four the validator reports no
discrepancy and stays valid; the count-mismatch discrepancy with
invalidity arises from an internally inconsistent provided summary
instead, such as one claiming ten scenarios but seven passed, two failed
and two skipped. -/
theorem validateCounts_scenario4_amended :
    (validateTestCounts 5 c5Summary (some (.arrv c5Raw))).isValid = true ∧
    (validateTestCounts 5 c5Summary (some (.arrv c5Raw))).discrepancies = [] ∧
    (validateTestCounts 5 c5SummaryBad (some (.arrv c5Raw))).isValid = false ∧
    (validateTestCounts 5 c5SummaryBad (some (.arrv c5Raw))).discrepancies =
      [.count_mismatch 10 11 1] := by
  refine ⟨rfl, rfl, rfl, rfl⟩

/-- Witness for the malformed-input theorem at the default options. -/
theorem malformed_scenario_never_error_witness :
    (calculateScenarioStatus defaultCalcOptions .jprim).status = "skipped" ∧
    (calculateScenarioStatus defaultCalcOptions .jfalsy).status = "unknown" ∧
    (calculateScenarioStatus defaultCalcOptions .jnull).status ≠ "error" :=
  ⟨(malformed_scenario_never_error defaultCalcOptions).2.2.1,
   by rw [(malformed_scenario_never_error defaultCalcOptions).2.1],
   (malformed_scenario_never_error defaultCalcOptions).2.2.2 .jnull⟩

/-! ## Sanitizer idempotence

The idempotence of the sanitization pipeline rests on a shape invariant
of its outputs: every name is a nonempty trim-fixed string, every id,
type and keyword is truthy, every surviving step entry is an object with
a result or a truthy status, every hook has a result and a match, and
every feature's elements form an array of scenario objects.  Each level
is proved to (a) establish the invariant on its output and (b) act as
the identity on inputs satisfying the invariant. -/

/-- A character list that is nonempty and has non-whitespace ends; such
lists are fixed points of trimming. -/
def goodChars (l : List Char) : Prop :=
  l ≠ [] ∧ (∀ c, l.head? = some c → isWsChar c = false) ∧
    (∀ c, l.getLast? = some c → isWsChar c = false)

/-- Well-ended lists are fixed by trimming. -/
theorem trim_of_good (l : List Char) (h : goodChars l) : trimChars l = l :=
  trim_eq_self l h.2.1 h.2.2

/-- A nonempty trimming result is well-ended. -/
theorem good_of_trim (l : List Char) (h : trimChars l ≠ []) :
    goodChars (trimChars l) :=
  ⟨h, trim_head_not_ws l, trim_last_not_ws l⟩

/-- The head of an append with nonempty left part. -/
theorem head?_append_left {α : Type} (l1 l2 : List α) (h : l1 ≠ []) :
    (l1 ++ l2).head? = l1.head? := by
  cases l1 with
  | nil => exact absurd rfl h
  | cons a t => rfl

/-- The last element of an append with nonempty right part. -/
theorem getLast?_append_right {α : Type} (l1 l2 : List α) (h : l2 ≠ []) :
    (l1 ++ l2).getLast? = l2.getLast? := by
  rw [← List.head?_reverse, List.reverse_append,
    head?_append_left _ _ (by simpa using h), List.head?_reverse]

/-- An append of a left part with a good head and a right part with a
good last element is well-ended. -/
theorem goodChars_append (l1 l2 : List Char)
    (h1 : l1 ≠ []) (h2 : ∀ c, l1.head? = some c → isWsChar c = false)
    (h3 : l2 ≠ []) (h4 : ∀ c, l2.getLast? = some c → isWsChar c = false) :
    goodChars (l1 ++ l2) := by
  refine ⟨by simp [h1], ?_, ?_⟩
  · intro c hc
    rw [head?_append_left l1 l2 h1] at hc
    exact h2 c hc
  · intro c hc
    rw [getLast?_append_right l1 l2 h3] at hc
    exact h4 c hc

/-- A string with well-ended data is nonempty. -/
theorem good_ne_empty (s : String) (h : goodChars s.data) : s ≠ "" := by
  intro he
  rw [str_eq_empty_iff] at he
  exact h.1 he

/-- A string with well-ended data is fixed by trimming. -/
theorem good_trimStr_fix (s : String) (h : goodChars s.data) : trimStr s = s := by
  cases s with
  | mk d =>
    show (⟨trimChars d⟩ : String) = ⟨d⟩
    rw [trim_of_good d h]

/-- Fallback strings of the sanitizer: a literal word, a space and a
rendered index; they are nonempty and well-ended. -/
theorem goodChars_prefix_nat (p : String) (i : Nat)
    (h1 : p.data ≠ []) (h2 : ∀ c, p.data.head? = some c → isWsChar c = false) :
    goodChars ((p ++ natStr i).data) := by
  rw [strdata_append]
  exact goodChars_append p.data (natStr i).data h1 h2
    (natChars_ne_nil i) (natChars_last_not_ws i)

/-- The placeholder suffix appended by sanitizeTestName. -/
theorem goodChars_placeholder (fb : String) (hfb : goodChars fb.data) :
    goodChars ((fb ++ " (auto-generated)").data) := by
  rw [strdata_append]
  refine goodChars_append fb.data (" (auto-generated)").data hfb.1 hfb.2.1 (by decide) ?_
  intro c hc
  have hcp : c = ')' := by
    have : (" (auto-generated)").data.getLast? = some ')' := by decide
    rw [this] at hc
    exact (Option.some.inj hc).symm
  subst hcp
  decide

/-- Unfolding of sanitizeTestName on a string name. -/
theorem sanitizeTestName_str (gp : Bool) (s fb : String) :
    sanitizeTestName gp (.str s) fb =
      if trimStr s = "" then (if gp then fb ++ " (auto-generated)" else fb)
      else trimStr s := rfl

/-- Unfolding of sanitizeTestName on a missing name. -/
theorem sanitizeTestName_undef (gp : Bool) (fb : String) :
    sanitizeTestName gp .missing fb =
      (if gp then fb ++ " (auto-generated)" else fb) := rfl

/-- Unfolding of sanitizeTestName on a truthy non-string name. -/
theorem sanitizeTestName_prim (gp : Bool) (fb : String) :
    sanitizeTestName gp .prim fb =
      (if gp then fb ++ " (auto-generated)" else fb) := rfl

/-- The sanitized name is a nonempty well-ended string whenever the
fallback is. -/
theorem sanitizeTestName_good (gp : Bool) (n : JVal) (fb : String)
    (hfb : goodChars fb.data) :
    goodChars (sanitizeTestName gp n fb).data := by
  have hph : goodChars ((if gp then fb ++ " (auto-generated)" else fb)).data := by
    by_cases hgp : gp = true
    · rw [if_pos hgp]
      exact goodChars_placeholder fb hfb
    · rw [if_neg hgp]
      exact hfb
  cases n with
  | str s =>
    rw [sanitizeTestName_str]
    by_cases hz : trimStr s = ""
    · rw [if_pos hz]
      exact hph
    · rw [if_neg hz]
      have hd : trimChars s.data ≠ [] := by
        intro he
        apply hz
        rw [str_eq_empty_iff]
        exact he
      exact good_of_trim s.data hd
  | missing =>
    rw [sanitizeTestName_undef]
    exact hph
  | prim =>
    rw [sanitizeTestName_prim]
    exact hph

/-- Sanitizing a name that is already a nonempty trim-fixed string is
the identity, whatever the fallback and placeholder flag. -/
theorem sanitizeTestName_fix (gp2 : Bool) (m : String) (fb2 : String)
    (hm : goodChars m.data) :
    sanitizeTestName gp2 (.str m) fb2 = m := by
  rw [sanitizeTestName_str, if_neg]
  · exact good_trimStr_fix m hm
  · rw [good_trimStr_fix m hm]
    exact good_ne_empty m hm

/-- Good data of the three fallback families used by the sanitizer. -/
theorem goodChars_feature_fb (i : Nat) : goodChars (("Feature " ++ natStr i).data) := by
  refine goodChars_prefix_nat "Feature " i (by decide) ?_
  intro c hc
  have hcf : c = 'F' := by
    have : ("Feature ").data.head? = some 'F' := by decide
    rw [this] at hc
    exact (Option.some.inj hc).symm
  subst hcf
  decide

/-- Good data of the scenario fallback. -/
theorem goodChars_scenario_fb (i : Nat) : goodChars (("Scenario " ++ natStr i).data) := by
  refine goodChars_prefix_nat "Scenario " i (by decide) ?_
  intro c hc
  have hcf : c = 'S' := by
    have : ("Scenario ").data.head? = some 'S' := by decide
    rw [this] at hc
    exact (Option.some.inj hc).symm
  subst hcf
  decide

/-- Good data of the step fallback. -/
theorem goodChars_step_fb (i : Nat) : goodChars (("Step " ++ natStr i).data) := by
  refine goodChars_prefix_nat "Step " i (by decide) ?_
  intro c hc
  have hcf : c = 'S' := by
    have : ("Step ").data.head? = some 'S' := by decide
    rw [this] at hc
    exact (Option.some.inj hc).symm
  subst hcf
  decide

/-- A name value that is a nonempty well-ended string. -/
def goodName (v : JVal) : Prop :=
  ∃ m, v = JVal.str m ∧ goodChars m.data

/-- Shape invariant of sanitized steps: good name, truthy keyword, and a
result object or a truthy status. -/
def stepSan (st : StepR) : Prop :=
  goodName st.name ∧ st.keyword.truthy = true ∧
    (st.result.isSome = true ∨ st.status.truthy = true)

/-- Unfolding of sanitizeStep on a step object. -/
theorem sanitizeStep_some (gp : Bool) (i : Nat) (st : StepR) :
    sanitizeStep gp i (some st) =
      some { st with
        name := .str (sanitizeTestName gp st.name ("Step " ++ natStr i)),
        keyword := if st.keyword.truthy then st.keyword else .str "Given ",
        result :=
          if st.result.isNone && !st.status.truthy then some defaultResult
          else st.result } := rfl

/-- Sanitized steps satisfy the step invariant. -/
theorem sanitizeStep_output_sane (gp : Bool) (i : Nat) (st st2 : StepR)
    (h : sanitizeStep gp i (some st) = some st2) : stepSan st2 := by
  rw [sanitizeStep_some] at h
  have h2 := Option.some.inj h
  subst h2
  refine ⟨⟨_, rfl, sanitizeTestName_good gp st.name _ (goodChars_step_fb i)⟩, ?_, ?_⟩
  · by_cases hk : st.keyword.truthy = true
    · simp [hk]
    · simp [hk]
      decide
  · by_cases hc : (st.result.isNone && !st.status.truthy) = true
    · simp [hc]
    · simp [hc]
      by_cases h1 : st.status.truthy = true
      · right
        exact h1
      · left
        have hn : st.result.isNone = false := by
          cases hb : st.result.isNone
          · rfl
          · exact absurd (by simp [hb, h1]) hc
        cases hr : st.result with
        | none =>
          rw [hr] at hn
          simp at hn
        | some v => simp

/-- Sanitizing a step that already satisfies the invariant changes
nothing. -/
theorem sanitizeStep_fix (gp2 : Bool) (i2 : Nat) (st : StepR) (h : stepSan st) :
    sanitizeStep gp2 i2 (some st) = some st := by
  obtain ⟨⟨m, hm, hgm⟩, hkw, hres⟩ := h
  rw [sanitizeStep_some]
  cases st with
  | mk n k r s e =>
    simp only at hm hkw hres
    subst hm
    have hcond : (r.isNone && !s.truthy) = false := by
      rcases hres with h1 | h1
      · cases r with
        | none => simp at h1
        | some v => simp
      · simp [h1]
    rw [sanitizeTestName_fix gp2 m _ hgm]
    rw [if_pos hkw]
    rw [hcond]
    rfl

/-- Shape invariant of sanitized hooks: result and match present. -/
def hookSan (h : HookR) : Prop :=
  h.result.isSome = true ∧ h.matchv.isSome = true

/-- Sanitized hooks satisfy the hook invariant. -/
theorem sanitizeHook_sane (t : String) (oh : Option HookR) :
    hookSan (sanitizeHook t oh) := by
  cases oh with
  | none => exact ⟨rfl, rfl⟩
  | some h => exact ⟨rfl, rfl⟩

/-- Sanitizing a hook that already satisfies the invariant changes
nothing. -/
theorem sanitizeHook_fix (t2 : String) (h : HookR) (hs : hookSan h) :
    sanitizeHook t2 (some h) = h := by
  obtain ⟨h1, h2⟩ := hs
  cases h with
  | mk r s mv e =>
    simp only at h1 h2
    cases r with
    | none => simp at h1
    | some rv =>
      cases mv with
      | none => simp at h2
      | some mvv =>
        unfold sanitizeHook
        rfl

/-- A map whose function fixes every member is the identity. -/
theorem map_eq_self_of_fix {α : Type} (l : List α) (f : α → α)
    (h : ∀ a ∈ l, f a = a) : l.map f = l := by
  induction l with
  | nil => rfl
  | cons a t ih =>
    rw [List.map_cons, h a (List.mem_cons_self a t),
      ih (fun x hx => h x (List.mem_cons_of_mem a hx))]

/-- An indexed filterMap over embedded values that fixes every member
recovers the original list, for any starting index. -/
theorem enumFrom_filterMap_fix {α β : Type} (F : Nat → α → Option β) (G : β → α)
    (l : List β) (h : ∀ b ∈ l, ∀ k, F k (G b) = some b) :
    ∀ n, ((l.map G).enumFrom n).filterMap (fun p => F p.1 p.2) = l := by
  induction l with
  | nil => intro n; rfl
  | cons b t ih =>
    intro n
    have hstep : ((b :: t).map G).enumFrom n = (n, G b) :: (t.map G).enumFrom (n + 1) :=
      rfl
    rw [hstep, List.filterMap_cons]
    rw [h b (List.mem_cons_self b t) n]
    rw [ih (fun x hx k => h x (List.mem_cons_of_mem b hx) k) (n + 1)]

/-- An indexed filterMap that fixes every member recovers the list. -/
theorem enumFrom_filterMap_fix_id {α : Type} (F : Nat → α → Option α)
    (l : List α) (h : ∀ a ∈ l, ∀ k, F k a = some a) :
    ∀ n, ((l.enumFrom n).filterMap (fun p => F p.1 p.2)) = l := by
  induction l with
  | nil => intro n; rfl
  | cons a t ih =>
    intro n
    have hstep : (a :: t).enumFrom n = (n, a) :: t.enumFrom (n + 1) := rfl
    rw [hstep, List.filterMap_cons, h a (List.mem_cons_self a t) n]
    rw [ih (fun x hx k => h x (List.mem_cons_of_mem a hx) k) (n + 1)]

/-- An indexed map-then-filter that fixes every member of a list of
present options recovers the list. -/
theorem enumFrom_map_filter_fix {α : Type} (F : Nat → Option α → Option α)
    (l : List (Option α))
    (h : ∀ w ∈ l, (∀ k, F k w = w) ∧ w.isSome = true) :
    ∀ n, ((l.enumFrom n).map (fun p => F p.1 p.2)).filter Option.isSome = l := by
  induction l with
  | nil => intro n; rfl
  | cons w t ih =>
    intro n
    have hstep : (w :: t).enumFrom n = (n, w) :: t.enumFrom (n + 1) := rfl
    rw [hstep, List.map_cons]
    obtain ⟨hfix, hsome⟩ := h w (List.mem_cons_self w t)
    rw [hfix n, List.filter_cons, if_pos hsome]
    rw [ih (fun x hx => h x (List.mem_cons_of_mem w hx)) (n + 1)]

/-- Step-array invariant: a genuine array contains only present entries
that satisfy the step invariant; other shapes are untouched anyway. -/
def stepsOk : JArr (Option StepR) → Prop
  | .arr xs => ∀ w ∈ xs, ∃ st, w = some st ∧ stepSan st
  | _ => True

/-- Hook-array invariant. -/
def hooksOk : JArr (Option HookR) → Prop
  | .arr hs => ∀ w ∈ hs, ∃ h, w = some h ∧ hookSan h
  | _ => True

/-- The steps rewrite establishes the step-array invariant. -/
theorem sanitizeStepsArr_sane (gp : Bool) (a : JArr (Option StepR)) :
    stepsOk (sanitizeStepsArr gp a) := by
  cases a with
  | arr xs =>
    intro w hw
    rw [List.mem_filter] at hw
    obtain ⟨hw1, hw2⟩ := hw
    rw [List.mem_map] at hw1
    obtain ⟨p, _, hp⟩ := hw1
    cases hx : p.2 with
    | none =>
      rw [hx] at hp
      rw [← hp] at hw2
      simp [sanitizeStep] at hw2
    | some st =>
      rw [hx] at hp
      cases hw3 : sanitizeStep gp p.1 (some st) with
      | none => rw [hw3] at hp; rw [← hp] at hw2; simp at hw2
      | some st2 =>
        refine ⟨st2, ?_, sanitizeStep_output_sane gp p.1 st st2 hw3⟩
        rw [← hp, hw3]
  | missing => trivial
  | fprim => trivial
  | tprim => trivial

/-- Unfolding of the steps rewrite on an actual array. -/
theorem sanitizeStepsArr_arr (gp : Bool) (xs : List (Option StepR)) :
    sanitizeStepsArr gp (.arr xs) =
      .arr (((xs.enum).map (fun p => sanitizeStep gp p.1 p.2)).filter Option.isSome) :=
  rfl

/-- The steps rewrite is the identity on arrays satisfying the
invariant. -/
theorem sanitizeStepsArr_fix (gp2 : Bool) (a : JArr (Option StepR))
    (h : stepsOk a) : sanitizeStepsArr gp2 a = a := by
  cases a with
  | arr xs =>
    rw [sanitizeStepsArr_arr]
    have hx : ∀ w ∈ xs, (∀ k, sanitizeStep gp2 k w = w) ∧ w.isSome = true := by
      intro w hw
      obtain ⟨st, hst, hsan⟩ := h w hw
      subst hst
      exact ⟨fun k => sanitizeStep_fix gp2 k st hsan, rfl⟩
    rw [show (xs.enum : List (Nat × Option StepR)) = xs.enumFrom 0 from rfl]
    rw [enumFrom_map_filter_fix _ xs hx 0]
  | missing => rfl
  | fprim => rfl
  | tprim => rfl

/-- The hooks rewrite establishes the hook-array invariant. -/
theorem sanitizeHooksArr_sane (t : String) (a : JArr (Option HookR)) :
    hooksOk (sanitizeHooksArr t a) := by
  cases a with
  | arr hs =>
    intro w hw
    rw [List.mem_map] at hw
    obtain ⟨oh, _, hoh⟩ := hw
    exact ⟨sanitizeHook t oh, hoh.symm, sanitizeHook_sane t oh⟩
  | missing => trivial
  | fprim => trivial
  | tprim => trivial

/-- The hooks rewrite is the identity on arrays satisfying the
invariant. -/
theorem sanitizeHooksArr_fix (t2 : String) (a : JArr (Option HookR))
    (h : hooksOk a) : sanitizeHooksArr t2 a = a := by
  cases a with
  | arr hs =>
    rw [show sanitizeHooksArr t2 (.arr hs) =
      .arr (hs.map (fun w => some (sanitizeHook t2 w))) from rfl]
    rw [map_eq_self_of_fix hs _ ?_]
    intro w hw
    obtain ⟨hk, hks, hsan⟩ := h w hw
    subst hks
    rw [sanitizeHook_fix t2 hk hsan]
  | missing => rfl
  | fprim => rfl
  | tprim => rfl

/-- A generated id is never the empty string: it always starts with the
feature- prefix. -/
theorem generateId_ne_empty (n : JVal) (fi si : Nat) (g : String)
    (h : generateId n fi si = .ok g) : g ≠ "" := by
  have hform : ∃ rest : String, g = "feature-" ++ rest := by
    cases n with
    | prim => simp [generateId] at h
    | missing =>
      unfold generateId at h
      exact ⟨_, (Except.ok.inj h).symm⟩
    | str s =>
      rw [show generateId (.str s) fi si =
        (if s = "" then
          Except.ok ("feature-" ++ natStr fi ++ "-" ++
            jsLowerReplace ("scenario-" ++ natStr si) ++ "-" ++ natStr si)
        else Except.ok ("feature-" ++ natStr fi ++ "-" ++ jsLowerReplace s ++ "-" ++
          natStr si)) from rfl] at h
      by_cases hz : s = ""
      · rw [if_pos hz] at h
        exact ⟨_, (Except.ok.inj h).symm⟩
      · rw [if_neg hz] at h
        exact ⟨_, (Except.ok.inj h).symm⟩
  obtain ⟨rest, hr⟩ := hform
  subst hr
  intro he
  rw [str_eq_empty_iff, strdata_append] at he
  exact absurd (List.append_eq_nil.mp he).1 (by decide)

/-- Shape invariant of sanitized scenarios. -/
def scenarioSan (sc : ScenarioR) : Prop :=
  goodName sc.name ∧ sc.id.truthy = true ∧ sc.type.truthy = true ∧
    stepsOk sc.steps ∧ hooksOk sc.before ∧ hooksOk sc.after

/-- Unfolding of sanitizeScenario on a scenario object. -/
theorem sanitizeScenario_jobj (gp : Bool) (fi si : Nat) (sc : ScenarioR) :
    sanitizeScenario gp fi si (.jobj sc) =
      (if sc.id.truthy then Except.ok sc.id
       else (generateId sc.name fi si).map JVal.str).map (fun idv =>
        some { sc with
          name := .str (sanitizeTestName gp sc.name ("Scenario " ++ natStr si)),
          id := idv,
          type := if sc.type.truthy then sc.type else .str "scenario",
          steps := sanitizeStepsArr gp sc.steps,
          before := sanitizeHooksArr "before" sc.before,
          after := sanitizeHooksArr "after" sc.after }) := rfl

/-- Sanitized scenarios satisfy the scenario invariant. -/
theorem sanitizeScenario_output_sane (gp : Bool) (fi si : Nat) (e : SEntry)
    (sc2 : ScenarioR) (h : sanitizeScenario gp fi si e = .ok (some sc2)) :
    scenarioSan sc2 := by
  cases e with
  | jnull => simp [sanitizeScenario] at h
  | jfalsy => simp [sanitizeScenario] at h
  | jprim => simp [sanitizeScenario] at h
  | jobj sc =>
    rw [sanitizeScenario_jobj] at h
    have htype : ∀ idv : JVal,
        some { sc with
          name := .str (sanitizeTestName gp sc.name ("Scenario " ++ natStr si)),
          id := idv,
          type := if sc.type.truthy then sc.type else .str "scenario",
          steps := sanitizeStepsArr gp sc.steps,
          before := sanitizeHooksArr "before" sc.before,
          after := sanitizeHooksArr "after" sc.after } = some sc2 →
        idv.truthy = true → scenarioSan sc2 := by
      intro idv heq hidv
      have h2 := Option.some.inj heq
      subst h2
      refine ⟨⟨_, rfl, sanitizeTestName_good gp sc.name _ (goodChars_scenario_fb si)⟩,
        hidv, ?_, sanitizeStepsArr_sane gp sc.steps,
        sanitizeHooksArr_sane "before" sc.before, sanitizeHooksArr_sane "after" sc.after⟩
      by_cases ht : sc.type.truthy = true
      · simp [ht]
      · simp [ht]
        decide
    by_cases hid : sc.id.truthy = true
    · rw [if_pos hid] at h
      simp only [Except.map] at h
      exact htype sc.id (Except.ok.inj h) hid
    · rw [if_neg hid] at h
      cases hg : generateId sc.name fi si with
      | error u =>
        rw [hg] at h
        simp [Except.map] at h
      | ok g =>
        rw [hg] at h
        simp only [Except.map] at h
        refine htype (.str g) (Except.ok.inj h) ?_
        have hne := generateId_ne_empty sc.name fi si g hg
        simpa [JVal.truthy] using hne

/-- Sanitizing a scenario that already satisfies the invariant changes
nothing. -/
theorem sanitizeScenario_fix (gp2 : Bool) (fi2 si2 : Nat) (sc : ScenarioR)
    (h : scenarioSan sc) : sanitizeScenario gp2 fi2 si2 (.jobj sc) = .ok (some sc) := by
  obtain ⟨⟨m, hm, hgm⟩, hid, htype, hsteps, hbef, haft⟩ := h
  rw [sanitizeScenario_jobj, if_pos hid]
  simp only [Except.map]
  cases sc with
  | mk n i t stp bef aft =>
    simp only at hm hid htype hsteps hbef haft
    subst hm
    rw [sanitizeTestName_fix gp2 m _ hgm]
    rw [if_pos htype]
    rw [sanitizeStepsArr_fix gp2 stp hsteps]
    rw [sanitizeHooksArr_fix "before" bef hbef]
    rw [sanitizeHooksArr_fix "after" aft haft]

/-- Shape invariant of sanitized features: good name and an elements
array of scenario objects satisfying the scenario invariant. -/
def featureSan (f : FeatureR) : Prop :=
  goodName f.name ∧
    ∃ zs, f.elements = .arr zs ∧ ∀ z ∈ zs, ∃ s, z = SEntry.jobj s ∧ scenarioSan s

/-- Unfolding of sanitizeFeature on a feature object. -/
theorem sanitizeFeature_jobj (gp : Bool) (i : Nat) (f : FeatureR) :
    sanitizeFeature gp i (.jobj f) =
      some { f with
        name := .str (sanitizeTestName gp f.name ("Feature " ++ natStr i)),
        elements := JArr.arr (sanitizeElems gp i (pickElems f)) } := rfl

/-- Every surviving element of the element loop is a sanitized scenario
object. -/
theorem sanitizeElems_sane (gp : Bool) (i : Nat) (src : List SEntry) :
    ∀ z ∈ sanitizeElems gp i src, ∃ s, z = SEntry.jobj s ∧ scenarioSan s := by
  intro z hz
  unfold sanitizeElems at hz
  rw [List.mem_filterMap] at hz
  obtain ⟨p, _, hp⟩ := hz
  cases hs : sanitizeScenario gp i p.1 p.2 with
  | error u => rw [hs] at hp; simp at hp
  | ok v =>
    cases v with
    | none => rw [hs] at hp; simp at hp
    | some s =>
      rw [hs] at hp
      simp only at hp
      exact ⟨s, (Option.some.inj hp).symm,
        sanitizeScenario_output_sane gp i p.1 p.2 s hs⟩

/-- Sanitized features satisfy the feature invariant. -/
theorem sanitizeFeature_output_sane (gp : Bool) (i : Nat) (fe : FEntry)
    (f2 : FeatureR) (h : sanitizeFeature gp i fe = some f2) : featureSan f2 := by
  cases fe with
  | jnull => simp [sanitizeFeature] at h
  | jprim => simp [sanitizeFeature] at h
  | jobj f =>
    rw [sanitizeFeature_jobj] at h
    have h2 := Option.some.inj h
    subst h2
    exact ⟨⟨_, rfl, sanitizeTestName_good gp f.name _ (goodChars_feature_fb i)⟩,
      sanitizeElems gp i (pickElems f), rfl, sanitizeElems_sane gp i (pickElems f)⟩

/-- The picked element source of a feature whose elements field is a
genuine array is that array. -/
theorem pickElems_arr (f : FeatureR) (zs : List SEntry)
    (hel : f.elements = .arr zs) : pickElems f = zs := by
  unfold pickElems
  rw [hel]
  rfl

/-- The element loop is the identity on arrays of sanitized scenario
objects. -/
theorem sanitizeElems_fix (gp2 : Bool) (i2 : Nat) (zs : List SEntry)
    (h : ∀ z ∈ zs, ∃ s, z = SEntry.jobj s ∧ scenarioSan s) :
    sanitizeElems gp2 i2 zs = zs := by
  unfold sanitizeElems
  rw [show (zs.enum : List (Nat × SEntry)) = zs.enumFrom 0 from rfl]
  refine enumFrom_filterMap_fix_id
    (fun k z =>
      match sanitizeScenario gp2 i2 k z with
      | .ok (some s) => some (SEntry.jobj s)
      | _ => none) zs ?_ 0
  intro z hz k
  obtain ⟨s, hs, hsan⟩ := h z hz
  subst hs
  show (match sanitizeScenario gp2 i2 k (SEntry.jobj s) with
    | Except.ok (some s) => some (SEntry.jobj s)
    | _ => none) = some (SEntry.jobj s)
  rw [sanitizeScenario_fix gp2 i2 k s hsan]

/-- Sanitizing a feature that already satisfies the invariant changes
nothing. -/
theorem sanitizeFeature_fix (gp2 : Bool) (i2 : Nat) (f : FeatureR)
    (h : featureSan f) : sanitizeFeature gp2 i2 (.jobj f) = some f := by
  obtain ⟨⟨m, hm, hgm⟩, zs, hel, hz⟩ := h
  rw [sanitizeFeature_jobj]
  rw [pickElems_arr f zs hel]
  rw [sanitizeElems_fix gp2 i2 zs hz]
  cases f with
  | mk n el scn =>
    simp only at hm hel
    subst hm
    subst hel
    rw [sanitizeTestName_fix gp2 m _ hgm]

/-- Every feature in the sanitized report data satisfies the feature
invariant. -/
theorem sanitizeReportData_sane (gp : Bool) (xs : List FEntry) :
    ∀ f ∈ sanitizeReportData gp xs, featureSan f := by
  intro f hf
  unfold sanitizeReportData at hf
  rw [List.mem_filterMap] at hf
  obtain ⟨p, _, hfe⟩ := hf
  exact sanitizeFeature_output_sane gp p.1 p.2 f hfe

/-- C6: sanitization is idempotent: feeding the sanitized report back
into validateReport returns it unchanged. -/
theorem sanitize_idempotent (gp : Bool) (xs : List FEntry) (ys : List FeatureR)
    (h : (validateReport gp (.arrv xs)).sanitizedData = some ys) :
    (validateReport gp (.arrv (ys.map FEntry.jobj))).sanitizedData = some ys := by
  have hys : sanitizeReportData gp xs = ys := Option.some.inj h
  subst hys
  have hall := sanitizeReportData_sane gp xs
  show some (sanitizeReportData gp ((sanitizeReportData gp xs).map FEntry.jobj)) =
    some (sanitizeReportData gp xs)
  congr 1
  generalize hL : sanitizeReportData gp xs = L at hall
  unfold sanitizeReportData
  rw [show ((L.map FEntry.jobj).enum : List (Nat × FEntry)) =
    (L.map FEntry.jobj).enumFrom 0 from rfl]
  exact enumFrom_filterMap_fix (fun k x => sanitizeFeature gp k x) FEntry.jobj L
    (fun f hf k => sanitizeFeature_fix gp k f (hall f hf)) 0

/-- Concrete raw report used to witness sanitizer idempotence: a null
feature and a feature with a padded name and no elements. -/
def c6Input : List FEntry :=
  [FEntry.jnull,
   FEntry.jobj { name := .str "  F  ", elements := .missing, scenarios := .missing }]

/-- The sanitized form of the witness report. -/
def c6Output : List FeatureR :=
  [{ name := .str "F", elements := .arr [], scenarios := .missing }]

/-- Witness for the idempotence theorem at a concrete report. -/
theorem sanitize_idempotent_witness :
    (validateReport true (.arrv (c6Output.map FEntry.jobj))).sanitizedData =
      some c6Output :=
  sanitize_idempotent true c6Input c6Output (by rfl)

/-- Step carrying a top-level status but no result object. -/
def c9Step : StepR :=
  { name := .str "st", keyword := .str "When ", result := none,
    status := .str "passed", error_message := .missing }

/-- Scenario containing the status-only step. -/
def c9Scenario : ScenarioR :=
  { name := .str "S", id := .str "s1", type := .str "scenario",
    steps := .arr [some c9Step], before := .missing, after := .missing }

/-- Feature containing the status-only step. -/
def c9Feature : FeatureR :=
  { name := .str "F", elements := .arr [.jobj c9Scenario], scenarios := .missing }

/-- Raw report whose only step has a status but no result. -/
def c9Input : List FEntry := [.jobj c9Feature]

/-- C9 (counterexample): sanitization keeps the status-only step exactly
as it is, so the sanitized report contains a step whose result is
absent. -/
theorem sanitized_step_without_result :
    (validateReport true (.arrv c9Input)).sanitizedData = some [c9Feature] ∧
    c9Step.result = none := by
  exact ⟨rfl, rfl⟩

/-- C9 (amended): in a sanitized report every surviving step entry is an
object carrying a result object or a truthy top-level status, and the
default result is installed exactly when both were absent. -/
theorem sanitized_steps_result_or_status (gp : Bool) (xs : List FEntry)
    (ys : List FeatureR) (h : (validateReport gp (.arrv xs)).sanitizedData = some ys)
    (f : FeatureR) (hf : f ∈ ys) (zs : List SEntry) (hel : f.elements = .arr zs)
    (z : SEntry) (hz : z ∈ zs) (s : ScenarioR) (hs : z = SEntry.jobj s)
    (sts : List (Option StepR)) (hst : s.steps = .arr sts)
    (w : Option StepR) (hw : w ∈ sts) :
    (∃ st, w = some st ∧ (st.result.isSome = true ∨ st.status.truthy = true)) ∧
    (∀ st0 : StepR, st0.result = none → st0.status.truthy = false →
      ∃ st2, sanitizeStep gp 0 (some st0) = some st2 ∧
        st2.result = some defaultResult) := by
  constructor
  · have hys : sanitizeReportData gp xs = ys := Option.some.inj h
    have hfs : featureSan f := by
      apply sanitizeReportData_sane gp xs
      rw [hys]
      exact hf
    obtain ⟨_, zs2, hel2, hz2⟩ := hfs
    have hzz : zs2 = zs := by
      have := hel2.symm.trans hel
      exact (JArr.arr.inj this)
    subst hzz
    obtain ⟨s2, hs2, hsan⟩ := hz2 z hz
    have hss : s = s2 := by
      rw [hs] at hs2
      exact SEntry.jobj.inj hs2
    have hsteps := hsan.2.2.2.1
    rw [← hss, hst] at hsteps
    have h4 : ∀ w2 ∈ sts, ∃ st, w2 = some st ∧ stepSan st := hsteps
    obtain ⟨st, hw2, hstSan⟩ := h4 w hw
    exact ⟨st, hw2, hstSan.2.2⟩
  · intro st0 h1 h2
    refine ⟨_, sanitizeStep_some gp 0 st0, ?_⟩
    simp [h1, h2]

/-- Step with neither result nor status. -/
def c9bStep : StepR :=
  { name := .missing, keyword := .missing, result := none,
    status := .missing, error_message := .missing }

/-- Scenario containing the bare step. -/
def c9bScenario : ScenarioR :=
  { name := .str "S2", id := .str "s2", type := .str "scenario",
    steps := .arr [some c9bStep], before := .missing, after := .missing }

/-- Feature containing the bare step. -/
def c9bFeature : FeatureR :=
  { name := .str "G", elements := .arr [.jobj c9bScenario], scenarios := .missing }

/-- Raw report whose only step misses both result and status. -/
def c9bInput : List FEntry := [.jobj c9bFeature]

/-- Sanitized form of the bare step: placeholder name, default keyword,
default result. -/
def c9bStepOut : StepR :=
  { name := .str "Step 0 (auto-generated)", keyword := .str "Given ",
    result := some defaultResult, status := .missing, error_message := .missing }

/-- Sanitized form of the bare scenario. -/
def c9bScenarioOut : ScenarioR :=
  { name := .str "S2", id := .str "s2", type := .str "scenario",
    steps := .arr [some c9bStepOut], before := .missing, after := .missing }

/-- Sanitized form of the bare feature. -/
def c9bFeatureOut : FeatureR :=
  { name := .str "G", elements := .arr [.jobj c9bScenarioOut], scenarios := .missing }

/-- Witness for the result-or-status theorem at a concrete report. -/
theorem sanitized_steps_result_or_status_witness :
    (∃ st, (some c9bStepOut : Option StepR) = some st ∧
      (st.result.isSome = true ∨ st.status.truthy = true)) ∧
    (∀ st0 : StepR, st0.result = none → st0.status.truthy = false →
      ∃ st2, sanitizeStep true 0 (some st0) = some st2 ∧
        st2.result = some defaultResult) :=
  sanitized_steps_result_or_status true c9bInput [c9bFeatureOut] (by rfl)
    c9bFeatureOut (by simp) [.jobj c9bScenarioOut] rfl
    (.jobj c9bScenarioOut) (by simp) c9bScenarioOut rfl
    [some c9bStepOut] rfl (some c9bStepOut) (by simp)
